import Mathlib

/-!
# TWAMP Light reflector: `cmd/stamp_reflector.go`

A shallow embedding of the reflector's timestamp codec (`toNTPTimestamp`) and of
the body of the receive/reflect loop of `main`, followed by the properties of
the wire format that are established about it.

Conventions of the embedding.

* A Go `byte` is a `Fin 256`; `uint16`, `uint32`, `uint64` values are natural
  numbers, with every conversion and every operation that can leave the width
  reduced explicitly (`% 2 ^ 64`, `% 256`).
* A Go slice of bytes is a `List Byte`.  Slice expressions, index expressions
  and the `encoding/binary` accessors return `Option`: `none` is the run-time
  panic of Go's bounds check.
* The loop body is a computation in `Exec`, which records the sequence of
  observable effects (clock reads, log lines, accesses to the receive buffer,
  the datagram sent) and whether the body panicked.
* The two values returned by `time.Now()` in one iteration are inputs of the
  body (`t2` for the first call, `t3` for the second); so are the results of
  the two socket calls.
-/

namespace StampReflector

/-! ## Machine values -/

/-- A Go `byte`. -/
abbrev Byte := Fin 256

/-- The conversion `byte(v)` of an unsigned integer: the low eight bits. -/
def byte (v : Nat) : Byte := ⟨v % 256, Nat.mod_lt v (by decide)⟩

/-- The conversion `uint64(x)` of a signed integer (`int64` or `int`): the value modulo `2 ^ 64`. -/
def uint64OfInt (x : Int) : Nat := (x % 2 ^ 64).toNat

/-- The part of a `time.Time` that the program reads: `t.Unix()`, the seconds since
1970-01-01T00:00:00Z, and `t.Nanosecond()`, the offset within the second. -/
structure Time where
  unix : Int
  nanosecond : Nat
  deriving DecidableEq, Repr

/-- The values the `time` package can return: `Unix()` is an `int64` and `Nanosecond()` lies in
`[0, 999999999]`. -/
def Time.wellFormed (t : Time) : Prop :=
  -(2 : Int) ^ 63 ≤ t.unix ∧ t.unix < 2 ^ 63 ∧ t.nanosecond < 1000000000

instance (t : Time) : Decidable t.wellFormed := by
  unfold Time.wellFormed; infer_instance

/-- The instant `a` is not later than the instant `b`. -/
def Time.notAfter (a b : Time) : Prop :=
  a.unix < b.unix ∨ (a.unix = b.unix ∧ a.nanosecond ≤ b.nanosecond)

instance (a b : Time) : Decidable (a.notAfter b) := by
  unfold Time.notAfter; infer_instance

/-! ## Timestamp codec -/

/-- Seconds between the Unix epoch (1970) and the NTP epoch (1900). -/
def NTP_EPOCH_OFFSET : Nat := 2208988800

/-- The function `toNTPTimestamp`: 32 bits of seconds since 1900 above 32 bits of binary fraction,
computed in `uint64` arithmetic. -/
def toNTPTimestamp (t : Time) : Nat :=
  let secs := (uint64OfInt t.unix + NTP_EPOCH_OFFSET) % 2 ^ 64
  let nanos := uint64OfInt (t.nanosecond : Int)
  let fraction := ((nanos <<< 32) % 2 ^ 64) / 1000000000
  ((secs <<< 32) % 2 ^ 64) ||| fraction

/-! ## Slices and `encoding/binary` -/

/-- The slice expression `buf[lo:hi]` of a slice whose capacity is its length. -/
def slice (buf : List Byte) (lo hi : Nat) : Option (List Byte) :=
  if lo ≤ hi ∧ hi ≤ buf.length then some ((buf.take hi).drop lo) else none

/-- The index expression `buf[i]`. -/
def index (buf : List Byte) (i : Nat) : Option Byte := buf[i]?

/-- The assignment `buf[i] = v`. -/
def setIndex (buf : List Byte) (i : Nat) (v : Byte) : Option (List Byte) :=
  if i < buf.length then some (buf.set i v) else none

/-- Runs `put` on the slice `buf[lo:hi]`, which shares its storage with `buf`: the bytes
written through the slice land in `buf` at offset `lo`. -/
def putSlice (buf : List Byte) (lo hi : Nat) (put : List Byte → Option (List Byte)) :
    Option (List Byte) :=
  match slice buf lo hi with
  | none => none
  | some s =>
    match put s with
    | none => none
    | some s1 => some (buf.take lo ++ s1 ++ buf.drop hi)

/-- The accessor `binary.BigEndian.Uint16`. -/
def Uint16 : List Byte → Option Nat
  | b0 :: b1 :: _ => some (b1.val ||| b0.val <<< 8)
  | _ => none

/-- The accessor `binary.BigEndian.Uint32`. -/
def Uint32 : List Byte → Option Nat
  | b0 :: b1 :: b2 :: b3 :: _ =>
    some (b3.val ||| b2.val <<< 8 ||| b1.val <<< 16 ||| b0.val <<< 24)
  | _ => none

/-- The accessor `binary.BigEndian.Uint64`. -/
def Uint64 : List Byte → Option Nat
  | b0 :: b1 :: b2 :: b3 :: b4 :: b5 :: b6 :: b7 :: _ =>
    some (b7.val ||| b6.val <<< 8 ||| b5.val <<< 16 ||| b4.val <<< 24 |||
      b3.val <<< 32 ||| b2.val <<< 40 ||| b1.val <<< 48 ||| b0.val <<< 56)
  | _ => none

/-- The writer `binary.BigEndian.PutUint16`; the result is the slice after the write. -/
def PutUint16 (v : Nat) : List Byte → Option (List Byte)
  | _ :: _ :: rest => some (byte (v >>> 8) :: byte v :: rest)
  | _ => none

/-- The writer `binary.BigEndian.PutUint32`; the result is the slice after the write. -/
def PutUint32 (v : Nat) : List Byte → Option (List Byte)
  | _ :: _ :: _ :: _ :: rest =>
    some (byte (v >>> 24) :: byte (v >>> 16) :: byte (v >>> 8) :: byte v :: rest)
  | _ => none

/-- The writer `binary.BigEndian.PutUint64`; the result is the slice after the write. -/
def PutUint64 (v : Nat) : List Byte → Option (List Byte)
  | _ :: _ :: _ :: _ :: _ :: _ :: _ :: _ :: rest =>
    some (byte (v >>> 56) :: byte (v >>> 48) :: byte (v >>> 40) :: byte (v >>> 32) ::
      byte (v >>> 24) :: byte (v >>> 16) :: byte (v >>> 8) :: byte v :: rest)
  | _ => none

/-! ## Packets -/

/-- The struct `TwampTestPacket`. -/
structure TwampTestPacket where
  Sequence : Nat
  Timestamp : Nat
  ErrorEstimate : Nat
  MBZ : List Byte
  ReceiveTimestamp : Nat
  SenderSequence : Nat
  SenderTimestamp : Nat
  SenderErrorEstimate : Nat
  MBZ2 : List Byte
  SenderTTL : Byte
  Padding : List Byte
  deriving DecidableEq, Repr

/-- The zero value of `TwampTestPacket`, as declared by `var p TwampTestPacket`. -/
def TwampTestPacket.zero : TwampTestPacket where
  Sequence := 0
  Timestamp := 0
  ErrorEstimate := 0
  MBZ := [0, 0]
  ReceiveTimestamp := 0
  SenderSequence := 0
  SenderTimestamp := 0
  SenderErrorEstimate := 0
  MBZ2 := [0, 0]
  SenderTTL := 0
  Padding := List.replicate 15 0

/-! ## Effects -/

/-- The lines the loop writes with `log.Printf`. -/
inductive LogLine
  | readError
  | tooSmall
  | received (seq : Nat)
  | sendError
  deriving DecidableEq, Repr

/-- Observable effects of one iteration of the loop. -/
inductive Effect
  | timeNow (t : Time)
  | logPrintf (line : LogLine)
  | bufferSlice (lo hi : Nat)
  | bufferIndex (i : Nat)
  | writeToUDP (payload : List Byte)
  deriving DecidableEq, Repr

/-- A run of straight-line code: the effects performed, in order, and the value computed;
`result = none` means the run ended in a panic. -/
structure Exec (α : Type) where
  trace : List Effect
  result : Option α
  deriving Repr

/-- A run that performs no effect and yields `a`. -/
def Exec.ret {α : Type} (a : α) : Exec α := ⟨[], some a⟩

/-- Sequencing: `f` runs after `x` unless `x` panicked. -/
def Exec.andThen {α β : Type} (x : Exec α) (f : α → Exec β) : Exec β :=
  match x.result with
  | none => ⟨x.trace, none⟩
  | some a => ⟨x.trace ++ (f a).trace, (f a).result⟩

instance : Monad Exec where
  pure := Exec.ret
  bind := Exec.andThen

/-- Performs one effect. -/
def effect (e : Effect) : Exec Unit := ⟨[e], some ()⟩

/-- A bounds-checked operation: panics on `none`. -/
def orPanic {α : Type} (o : Option α) : Exec α := ⟨[], o⟩

/-- The slice expression `buffer[lo:hi]` on the receive buffer. -/
def bufferSlice (buffer : List Byte) (lo hi : Nat) : Exec (List Byte) := do
  effect (.bufferSlice lo hi)
  orPanic (slice buffer lo hi)

/-- The index expression `buffer[i]` on the receive buffer. -/
def bufferIndex (buffer : List Byte) (i : Nat) : Exec Byte := do
  effect (.bufferIndex i)
  orPanic (index buffer i)

/-! ## The loop of `main` -/

/-- Lines 81 to 90: decodes the received packet from the receive buffer. -/
def decodeRequest (buffer : List Byte) : Exec TwampTestPacket := do
  let requestPacket := TwampTestPacket.zero
  let s ← bufferSlice buffer 0 4
  let v ← orPanic (Uint32 s)
  let requestPacket := { requestPacket with Sequence := v }
  let s ← bufferSlice buffer 4 12
  let v ← orPanic (Uint64 s)
  let requestPacket := { requestPacket with Timestamp := v }
  let s ← bufferSlice buffer 12 14
  let v ← orPanic (Uint16 s)
  let requestPacket := { requestPacket with ErrorEstimate := v }
  let b ← bufferIndex buffer 40
  let requestPacket := { requestPacket with SenderTTL := b }
  return requestPacket

/-- Lines 101 to 111: the response packet, given the two clock readings. -/
def buildResponse (requestPacket : TwampTestPacket) (receiveTime now : Time) : TwampTestPacket :=
  let responsePacket := TwampTestPacket.zero
  let responsePacket := { responsePacket with Sequence := requestPacket.Sequence }
  let responsePacket := { responsePacket with Timestamp := toNTPTimestamp now }
  let responsePacket := { responsePacket with ErrorEstimate := requestPacket.ErrorEstimate }
  let responsePacket := { responsePacket with ReceiveTimestamp := toNTPTimestamp receiveTime }
  let responsePacket := { responsePacket with SenderSequence := requestPacket.Sequence }
  let responsePacket := { responsePacket with SenderTimestamp := requestPacket.Timestamp }
  let responsePacket := { responsePacket with SenderErrorEstimate := 0 }
  let responsePacket := { responsePacket with SenderTTL := requestPacket.SenderTTL }
  responsePacket

/-- Lines 116 to 126: encodes the response packet into a fresh buffer of 56 bytes. -/
def encodeResponse (responsePacket : TwampTestPacket) : Option (List Byte) := do
  let responseBuffer := List.replicate 56 (0 : Byte)
  let responseBuffer ← putSlice responseBuffer 0 4 (PutUint32 responsePacket.Sequence)
  let responseBuffer ← putSlice responseBuffer 4 12 (PutUint64 responsePacket.Timestamp)
  let responseBuffer ← putSlice responseBuffer 12 14 (PutUint16 responsePacket.ErrorEstimate)
  let responseBuffer ← putSlice responseBuffer 16 24 (PutUint64 responsePacket.ReceiveTimestamp)
  let responseBuffer ← putSlice responseBuffer 24 28 (PutUint32 responsePacket.SenderSequence)
  let responseBuffer ← putSlice responseBuffer 28 36 (PutUint64 responsePacket.SenderTimestamp)
  let responseBuffer ← putSlice responseBuffer 36 38 (PutUint16 responsePacket.SenderErrorEstimate)
  let responseBuffer ← setIndex responseBuffer 40 responsePacket.SenderTTL
  return responseBuffer

/-- How an iteration of the loop that did not panic ends. -/
inductive Step
  | skipped
  | sent (payload : List Byte)
  deriving DecidableEq, Repr

/-- Lines 66 to 133, one iteration of the loop after `conn.ReadFromUDP(buffer)` has returned:
`buffer` is the receive buffer as the read left it, `n` the length it returned, `readErr` whether
it returned an error, `t2` and `t3` the results of the two calls of `time.Now()`, `sendErr`
whether `conn.WriteToUDP` returns an error. -/
def iteration (buffer : List Byte) (n : Nat) (readErr : Bool) (t2 t3 : Time) (sendErr : Bool) :
    Exec Step :=
  if readErr then do
    effect (.logPrintf .readError)
    return .skipped
  else do
    effect (.timeNow t2)
    let receiveTime := t2
    if n < 14 then do
      effect (.logPrintf .tooSmall)
      return .skipped
    else do
      let requestPacket ← decodeRequest buffer
      effect (.logPrintf (.received requestPacket.Sequence))
      effect (.timeNow t3)
      let responsePacket := buildResponse requestPacket receiveTime t3
      let responseBuffer ← orPanic (encodeResponse responsePacket)
      effect (.writeToUDP responseBuffer)
      if sendErr then do
        effect (.logPrintf .sendError)
        return .sent responseBuffer
      else
        return .sent responseBuffer

/-- The call `conn.ReadFromUDP(buffer)` when the datagram `d` is delivered: the datagram, cut to
the length of the buffer, is copied to the front of the buffer, whose other bytes keep their
values; the first component is the length `n` returned. -/
def readFromUDP (buffer d : List Byte) : Nat × List Byte :=
  let n := min d.length buffer.length
  (n, d.take n ++ buffer.drop n)

/-- What the environment supplies to one iteration of the loop: the datagram delivered by the
socket (`none` when the read fails), the two clock readings, and whether the send fails. -/
structure Inbound where
  datagram : Option (List Byte)
  t2 : Time
  t3 : Time
  sendErr : Bool
  deriving DecidableEq, Repr

/-- One iteration of the loop including the socket read; returns the receive buffer as the
iteration leaves it, together with how the iteration ended. -/
def loopBody (buffer : List Byte) (x : Inbound) : Exec (List Byte × Step) :=
  match x.datagram with
  | none => do
    let r ← iteration buffer 0 true x.t2 x.t3 x.sendErr
    return (buffer, r)
  | some d => do
    let (n, buffer) := readFromUDP buffer d
    let r ← iteration buffer n false x.t2 x.t3 x.sendErr
    return (buffer, r)

/-- Lines 62 to 134 run against a finite sequence of socket events; the receive buffer is
threaded through the iterations, and a panic ends the run.  Returns how each iteration ended. -/
def serveFrom (buffer : List Byte) : List Inbound → Exec (List Step)
  | [] => return []
  | x :: xs => do
    let (buffer, r) ← loopBody buffer x
    let rs ← serveFrom buffer xs
    return r :: rs

/-- Line 62: the receive buffer as `make([]byte, 1500)` returns it. -/
def freshBuffer : List Byte := List.replicate 1500 0

/-- The loop of `main`, started with the freshly made receive buffer. -/
def serve (xs : List Inbound) : Exec (List Step) :=
  serveFrom freshBuffer xs

/-! ## The wire format, as specified -/

/-- The eight bytes of an unsigned 64-bit value in network byte order, most significant first. -/
def BE64 (v : Nat) : List Byte :=
  [byte (v / 2 ^ 56), byte (v / 2 ^ 48), byte (v / 2 ^ 40), byte (v / 2 ^ 32),
    byte (v / 2 ^ 24), byte (v / 2 ^ 16), byte (v / 2 ^ 8), byte v]

/-- The unsigned value of a byte string read in network byte order. -/
def BEValue (bs : List Byte) : Nat := bs.foldl (fun acc x => acc * 256 + x.val) 0

/-- The bytes `b[lo..hi)` of a byte string. -/
def bytes (b : List Byte) (lo hi : Nat) : List Byte := (b.take hi).drop lo

/-- The reflected test packet as the wire format lays it out, for the receive buffer `b` and the
clock readings `t2` (receive) and `t3` (send): Sequence, Timestamp (T3), Error Estimate, two
reserved bytes, Receive Timestamp (T2), Sender Sequence, Sender Timestamp, Sender Error Estimate,
two reserved bytes, Sender TTL, fifteen bytes of padding. -/
def wireLayout (b : List Byte) (t2 t3 : Time) : List Byte :=
  bytes b 0 4 ++ BE64 (toNTPTimestamp t3) ++ bytes b 12 14 ++ [0, 0] ++
    BE64 (toNTPTimestamp t2) ++ bytes b 0 4 ++ bytes b 4 12 ++ [0, 0] ++ [0, 0] ++
    bytes b 40 41 ++ List.replicate 15 0


/-! ## Sample inputs -/

/-- A sender packet of 41 bytes: Sequence 1, Timestamp 0, Error Estimate 0, TTL byte `0x40` at
offset 40. -/
def samplePacket41 : List Byte := [0, 0, 0, 1] ++ List.replicate 36 0 ++ [0x40]

/-- A sender packet of the minimum size, 14 bytes: Sequence 2, Timestamp `0x0102030405060708`,
Error Estimate `0x090a`. -/
def samplePacket14 : List Byte := [0, 0, 0, 2, 1, 2, 3, 4, 5, 6, 7, 8, 9, 10]

/-- The instant 1970-01-01T00:00:00Z. -/
def unixEpoch : Time := ⟨0, 0⟩

/-- The instant 2036-02-07T06:28:15.999999999Z, the last nanosecond of NTP era 0. -/
def lastOfEra0 : Time := ⟨2085978495, 999999999⟩

/-- The instant 2036-02-07T06:28:16Z, at which the 32-bit seconds of NTP roll over. -/
def firstOfEra1 : Time := ⟨2085978496, 0⟩

/-- The 41-byte sample packet arriving, with both clock readings at the Unix epoch. -/
def sampleInbound41 : Inbound := ⟨some samplePacket41, unixEpoch, unixEpoch, false⟩

/-- The 14-byte sample packet arriving, with both clock readings at the Unix epoch. -/
def sampleInbound14 : Inbound := ⟨some samplePacket14, unixEpoch, unixEpoch, false⟩

/-! ## Readings of the format used in the statements -/

/-- The instant, in seconds since the Unix epoch, that a 64-bit NTP value denotes in the
specification's reading of the format: the high 32 bits are whole seconds since 1900, the low 32
bits a binary fraction of a second. -/
def decodeNTP (v : Nat) : ℚ :=
  ((v >>> 32 : Nat) : ℚ) - 2208988800 + ((v % 2 ^ 32 : Nat) : ℚ) / 2 ^ 32

/-- The instant of a clock reading, in seconds since the Unix epoch. -/
def Time.seconds (t : Time) : ℚ := (t.unix : ℚ) + (t.nanosecond : ℚ) / 1000000000

/-- The receive buffer after the socket reads of a sequence of events: each datagram received is
copied over the front of the buffer, a failed read leaves it as it was. -/
def bufferAfter (buffer : List Byte) : List Inbound → List Byte
  | [] => buffer
  | x :: xs =>
    match x.datagram with
    | none => bufferAfter buffer xs
    | some d => bufferAfter (readFromUDP buffer d).2 xs

/-- The most recent datagram of a sequence whose length is at least 41 bytes, if there is one. -/
def lastLongDatagram (ds : List (List Byte)) : Option (List Byte) :=
  (ds.filter fun d => decide (41 ≤ d.length)).getLast?

/-- The TTL byte expected in the reply to a short datagram that arrives after the datagrams
`ds`: byte 40 of the most recent of them that has at least 41 bytes, and 0 if there is none. -/
def expectedTTL (ds : List (List Byte)) : Byte :=
  match lastLongDatagram ds with
  | some d => d.getD 40 0
  | none => 0

/-! ## Arithmetic of the codec -/

theorem or_shiftLeft (x b k : Nat) (hx : x < 2 ^ k) : x ||| b <<< k = b * 2 ^ k + x := by
  rw [Nat.or_comm, Nat.shiftLeft_eq, Nat.mul_comm, ← Nat.mul_add_lt_is_or hx]

theorem uint16_value (b0 b1 : Byte) : b1.val ||| b0.val <<< 8 = b0.val * 2 ^ 8 + b1.val := by
  have h1 := b1.isLt
  rw [or_shiftLeft _ _ 8 (by omega)]

theorem uint32_value (b0 b1 b2 b3 : Byte) :
    b3.val ||| b2.val <<< 8 ||| b1.val <<< 16 ||| b0.val <<< 24
      = b0.val * 2 ^ 24 + b1.val * 2 ^ 16 + b2.val * 2 ^ 8 + b3.val := by
  have h0 := b0.isLt; have h1 := b1.isLt; have h2 := b2.isLt; have h3 := b3.isLt
  rw [or_shiftLeft _ _ 8 (by omega), or_shiftLeft _ _ 16 (by omega),
    or_shiftLeft _ _ 24 (by omega)]
  omega

theorem uint64_value (b0 b1 b2 b3 b4 b5 b6 b7 : Byte) :
    b7.val ||| b6.val <<< 8 ||| b5.val <<< 16 ||| b4.val <<< 24 |||
      b3.val <<< 32 ||| b2.val <<< 40 ||| b1.val <<< 48 ||| b0.val <<< 56
      = b0.val * 2 ^ 56 + b1.val * 2 ^ 48 + b2.val * 2 ^ 40 + b3.val * 2 ^ 32 +
        b4.val * 2 ^ 24 + b5.val * 2 ^ 16 + b6.val * 2 ^ 8 + b7.val := by
  have h0 := b0.isLt; have h1 := b1.isLt; have h2 := b2.isLt; have h3 := b3.isLt
  have h4 := b4.isLt; have h5 := b5.isLt; have h6 := b6.isLt; have h7 := b7.isLt
  rw [or_shiftLeft _ _ 8 (by omega), or_shiftLeft _ _ 16 (by omega),
    or_shiftLeft _ _ 24 (by omega), or_shiftLeft _ _ 32 (by omega),
    or_shiftLeft _ _ 40 (by omega), or_shiftLeft _ _ 48 (by omega),
    or_shiftLeft _ _ 56 (by omega)]
  omega

theorem byte_shiftRight (v k : Nat) : byte (v >>> k) = byte (v / 2 ^ k) := by
  rw [Nat.shiftRight_eq_div_pow]

theorem byte_eq_of_val (v : Nat) (b : Byte) (h : v % 256 = b.val) : byte v = b :=
  Fin.ext h

/-- Writing the decoded value of two bytes gives the two bytes back. -/
theorem put16_of_uint16 (b0 b1 : Byte) (rest : List Byte) :
    PutUint16 (b1.val ||| b0.val <<< 8) (b0 :: b1 :: rest) = some (b0 :: b1 :: rest) := by
  have h0 := b0.isLt; have h1 := b1.isLt
  simp only [PutUint16, uint16_value, byte_shiftRight]
  rw [byte_eq_of_val _ b0 (by omega), byte_eq_of_val _ b1 (by omega)]

/-- Writing the decoded value of four bytes gives the four bytes back. -/
theorem put32_of_uint32 (b0 b1 b2 b3 : Byte) (rest : List Byte) :
    PutUint32 (b3.val ||| b2.val <<< 8 ||| b1.val <<< 16 ||| b0.val <<< 24)
      (b0 :: b1 :: b2 :: b3 :: rest) = some (b0 :: b1 :: b2 :: b3 :: rest) := by
  have h0 := b0.isLt; have h1 := b1.isLt; have h2 := b2.isLt; have h3 := b3.isLt
  simp only [PutUint32, uint32_value, byte_shiftRight]
  rw [byte_eq_of_val _ b0 (by omega), byte_eq_of_val _ b1 (by omega),
    byte_eq_of_val _ b2 (by omega), byte_eq_of_val _ b3 (by omega)]

/-- Writing the decoded value of eight bytes gives the eight bytes back. -/
theorem put64_of_uint64 (b0 b1 b2 b3 b4 b5 b6 b7 : Byte) (rest : List Byte) :
    PutUint64 (b7.val ||| b6.val <<< 8 ||| b5.val <<< 16 ||| b4.val <<< 24 |||
      b3.val <<< 32 ||| b2.val <<< 40 ||| b1.val <<< 48 ||| b0.val <<< 56)
      (b0 :: b1 :: b2 :: b3 :: b4 :: b5 :: b6 :: b7 :: rest)
      = some (b0 :: b1 :: b2 :: b3 :: b4 :: b5 :: b6 :: b7 :: rest) := by
  have h0 := b0.isLt; have h1 := b1.isLt; have h2 := b2.isLt; have h3 := b3.isLt
  have h4 := b4.isLt; have h5 := b5.isLt; have h6 := b6.isLt; have h7 := b7.isLt
  simp only [PutUint64, uint64_value, byte_shiftRight]
  rw [byte_eq_of_val _ b0 (by omega), byte_eq_of_val _ b1 (by omega),
    byte_eq_of_val _ b2 (by omega), byte_eq_of_val _ b3 (by omega),
    byte_eq_of_val _ b4 (by omega), byte_eq_of_val _ b5 (by omega),
    byte_eq_of_val _ b6 (by omega), byte_eq_of_val _ b7 (by omega)]

/-- The decoder reads back what `BE64` lays out, for every value of 64 bits. -/
theorem uint64_BE64 (v : Nat) (hv : v < 2 ^ 64) : Uint64 (BE64 v) = some v := by
  simp only [BE64, Uint64, uint64_value, Option.some.injEq]
  simp only [byte]
  omega

theorem fraction_lt (n : Nat) (hn : n < 1000000000) : n * 2 ^ 32 / 1000000000 < 2 ^ 32 := by
  omega

/-- Closed form of `toNTPTimestamp`: the seconds since 1900 reduced modulo `2 ^ 32`, above the
truncated binary fraction. -/
theorem toNTPTimestamp_eq (t : Time) (hn : t.nanosecond < 1000000000) :
    toNTPTimestamp t =
      ((t.unix + 2208988800) % 2 ^ 32).toNat * 2 ^ 32 + t.nanosecond * 2 ^ 32 / 1000000000 := by
  have hf := fraction_lt t.nanosecond hn
  have hnanos : uint64OfInt (t.nanosecond : Int) = t.nanosecond := by
    unfold uint64OfInt; omega
  have hsecs : (((uint64OfInt t.unix + NTP_EPOCH_OFFSET) % 2 ^ 64) <<< 32) % 2 ^ 64
      = 2 ^ 32 * ((t.unix + 2208988800) % 2 ^ 32).toNat := by
    unfold uint64OfInt NTP_EPOCH_OFFSET
    rw [Nat.shiftLeft_eq]
    omega
  have hshift : (t.nanosecond <<< 32) % 2 ^ 64 = t.nanosecond * 2 ^ 32 := by
    rw [Nat.shiftLeft_eq]; omega
  unfold toNTPTimestamp
  simp only [hnanos, hsecs, hshift]
  rw [← Nat.mul_add_lt_is_or hf]
  omega

/-- The result of `toNTPTimestamp` is a `uint64`, for every argument. -/
theorem toNTPTimestamp_lt (t : Time) : toNTPTimestamp t < 2 ^ 64 := by
  unfold toNTPTimestamp
  apply Nat.or_lt_two_pow
  · exact Nat.mod_lt _ (by norm_num)
  · have h : (uint64OfInt (t.nanosecond : Int) <<< 32) % 2 ^ 64 < 2 ^ 64 :=
      Nat.mod_lt _ (by norm_num)
    omega


/-! ## Evaluation of the loop body -/

theorem uint16_bytes (b0 b1 : Byte) :
    byte ((b1.val ||| b0.val <<< 8) / 2 ^ 8) = b0 ∧ byte (b1.val ||| b0.val <<< 8) = b1 := by
  have h0 := b0.isLt; have h1 := b1.isLt
  rw [uint16_value]
  exact ⟨byte_eq_of_val _ b0 (by omega), byte_eq_of_val _ b1 (by omega)⟩

/-- The encoder never panics, and lays the fields of the packet out as follows. -/
theorem encodeResponse_eq (p : TwampTestPacket) :
    encodeResponse p = some
      ([byte (p.Sequence / 2 ^ 24), byte (p.Sequence / 2 ^ 16), byte (p.Sequence / 2 ^ 8),
          byte p.Sequence] ++
        BE64 p.Timestamp ++
        [byte (p.ErrorEstimate / 2 ^ 8), byte p.ErrorEstimate] ++ [0, 0] ++
        BE64 p.ReceiveTimestamp ++
        [byte (p.SenderSequence / 2 ^ 24), byte (p.SenderSequence / 2 ^ 16),
          byte (p.SenderSequence / 2 ^ 8), byte p.SenderSequence] ++
        BE64 p.SenderTimestamp ++
        [byte (p.SenderErrorEstimate / 2 ^ 8), byte p.SenderErrorEstimate] ++ [0, 0] ++
        [p.SenderTTL] ++ List.replicate 15 0) := by
  simp only [encodeResponse, List.replicate, BE64, ← byte_shiftRight]
  simp [putSlice, slice, PutUint32, PutUint64, PutUint16, setIndex]

theorem decodeRequest_cons (b0 b1 b2 b3 b4 b5 b6 b7 b8 b9 b10 b11 b12 b13 b14 b15 b16 b17 b18 b19 b20 b21 b22 b23 b24
    b25 b26 b27 b28 b29 b30 b31 b32 b33 b34 b35 b36 b37 b38 b39 b40 : Byte) (rest : List Byte) :
    decodeRequest (b0 :: b1 :: b2 :: b3 :: b4 :: b5 :: b6 :: b7 :: b8 :: b9 :: b10 :: b11 :: b12 :: b13 ::
      b14 :: b15 :: b16 :: b17 :: b18 :: b19 :: b20 :: b21 :: b22 :: b23 :: b24 :: b25 :: b26 ::
      b27 :: b28 :: b29 :: b30 :: b31 :: b32 :: b33 :: b34 :: b35 :: b36 :: b37 :: b38 :: b39 ::
      b40 :: rest) =
      ⟨[.bufferSlice 0 4, .bufferSlice 4 12, .bufferSlice 12 14, .bufferIndex 40],
        some { TwampTestPacket.zero with
          Sequence := b3.val ||| b2.val <<< 8 ||| b1.val <<< 16 ||| b0.val <<< 24
          Timestamp := b11.val ||| b10.val <<< 8 ||| b9.val <<< 16 ||| b8.val <<< 24 |||
            b7.val <<< 32 ||| b6.val <<< 40 ||| b5.val <<< 48 ||| b4.val <<< 56
          ErrorEstimate := b13.val ||| b12.val <<< 8
          SenderTTL := b40 }⟩ := by
  simp [decodeRequest, bufferSlice, bufferIndex, effect, orPanic, bind, Exec.andThen, pure, Exec.ret,
    slice, index, Uint32, Uint64, Uint16]

theorem wireLayout_cons (b0 b1 b2 b3 b4 b5 b6 b7 b8 b9 b10 b11 b12 b13 b14 b15 b16 b17 b18 b19 b20 b21 b22 b23 b24
    b25 b26 b27 b28 b29 b30 b31 b32 b33 b34 b35 b36 b37 b38 b39 b40 : Byte) (rest : List Byte) (t2 t3 : Time) :
    wireLayout (b0 :: b1 :: b2 :: b3 :: b4 :: b5 :: b6 :: b7 :: b8 :: b9 :: b10 :: b11 :: b12 :: b13 ::
      b14 :: b15 :: b16 :: b17 :: b18 :: b19 :: b20 :: b21 :: b22 :: b23 :: b24 :: b25 :: b26 ::
      b27 :: b28 :: b29 :: b30 :: b31 :: b32 :: b33 :: b34 :: b35 :: b36 :: b37 :: b38 :: b39 ::
      b40 :: rest) t2 t3 =
      [b0, b1, b2, b3] ++ BE64 (toNTPTimestamp t3) ++ [b12, b13] ++ [0, 0] ++
        BE64 (toNTPTimestamp t2) ++ [b0, b1, b2, b3] ++ [b4, b5, b6, b7, b8, b9, b10, b11] ++
        [0, 0] ++ [0, 0] ++ [b40] ++ List.replicate 15 0 := by
  simp [wireLayout, bytes]

theorem uint32_bytes (b0 b1 b2 b3 : Byte) :
    byte ((b3.val ||| b2.val <<< 8 ||| b1.val <<< 16 ||| b0.val <<< 24) / 2 ^ 24) = b0 ∧
    byte ((b3.val ||| b2.val <<< 8 ||| b1.val <<< 16 ||| b0.val <<< 24) / 2 ^ 16) = b1 ∧
    byte ((b3.val ||| b2.val <<< 8 ||| b1.val <<< 16 ||| b0.val <<< 24) / 2 ^ 8) = b2 ∧
    byte (b3.val ||| b2.val <<< 8 ||| b1.val <<< 16 ||| b0.val <<< 24) = b3 := by
  have h0 := b0.isLt; have h1 := b1.isLt; have h2 := b2.isLt; have h3 := b3.isLt
  rw [uint32_value]
  exact ⟨byte_eq_of_val _ b0 (by omega), byte_eq_of_val _ b1 (by omega),
    byte_eq_of_val _ b2 (by omega), byte_eq_of_val _ b3 (by omega)⟩

theorem BE64_uint64 (b0 b1 b2 b3 b4 b5 b6 b7 : Byte) :
    BE64 (b7.val ||| b6.val <<< 8 ||| b5.val <<< 16 ||| b4.val <<< 24 |||
      b3.val <<< 32 ||| b2.val <<< 40 ||| b1.val <<< 48 ||| b0.val <<< 56)
      = [b0, b1, b2, b3, b4, b5, b6, b7] := by
  have h0 := b0.isLt; have h1 := b1.isLt; have h2 := b2.isLt; have h3 := b3.isLt
  have h4 := b4.isLt; have h5 := b5.isLt; have h6 := b6.isLt; have h7 := b7.isLt
  rw [uint64_value]
  unfold BE64
  rw [byte_eq_of_val _ b0 (by omega), byte_eq_of_val _ b1 (by omega),
    byte_eq_of_val _ b2 (by omega), byte_eq_of_val _ b3 (by omega),
    byte_eq_of_val _ b4 (by omega), byte_eq_of_val _ b5 (by omega),
    byte_eq_of_val _ b6 (by omega), byte_eq_of_val _ b7 (by omega)]

theorem BEValue_four (b0 b1 b2 b3 : Byte) :
    BEValue [b0, b1, b2, b3] = b3.val ||| b2.val <<< 8 ||| b1.val <<< 16 ||| b0.val <<< 24 := by
  rw [uint32_value]
  simp only [BEValue, List.foldl]
  omega

theorem byte_zero : byte 0 = 0 := rfl

theorem iteration_cons (b0 b1 b2 b3 b4 b5 b6 b7 b8 b9 b10 b11 b12 b13 b14 b15 b16 b17 b18 b19 b20 b21 b22 b23 b24
    b25 b26 b27 b28 b29 b30 b31 b32 b33 b34 b35 b36 b37 b38 b39 b40 : Byte) (rest : List Byte) (n : Nat) (t2 t3 : Time)
    (sendErr : Bool) (hn : 14 ≤ n) :
    iteration (b0 :: b1 :: b2 :: b3 :: b4 :: b5 :: b6 :: b7 :: b8 :: b9 :: b10 :: b11 :: b12 :: b13 ::
      b14 :: b15 :: b16 :: b17 :: b18 :: b19 :: b20 :: b21 :: b22 :: b23 :: b24 :: b25 :: b26 ::
      b27 :: b28 :: b29 :: b30 :: b31 :: b32 :: b33 :: b34 :: b35 :: b36 :: b37 :: b38 :: b39 ::
      b40 :: rest) n false t2 t3 sendErr =
      ⟨[.timeNow t2, .bufferSlice 0 4, .bufferSlice 4 12, .bufferSlice 12 14, .bufferIndex 40,
          .logPrintf (.received (BEValue [b0, b1, b2, b3])), .timeNow t3,
          .writeToUDP (wireLayout (b0 :: b1 :: b2 :: b3 :: b4 :: b5 :: b6 :: b7 :: b8 :: b9 :: b10 :: b11 :: b12 :: b13 ::
      b14 :: b15 :: b16 :: b17 :: b18 :: b19 :: b20 :: b21 :: b22 :: b23 :: b24 :: b25 :: b26 ::
      b27 :: b28 :: b29 :: b30 :: b31 :: b32 :: b33 :: b34 :: b35 :: b36 :: b37 :: b38 :: b39 ::
      b40 :: rest) t2 t3)] ++
          (if sendErr then [.logPrintf .sendError] else []),
        some (.sent (wireLayout (b0 :: b1 :: b2 :: b3 :: b4 :: b5 :: b6 :: b7 :: b8 :: b9 :: b10 :: b11 :: b12 :: b13 ::
      b14 :: b15 :: b16 :: b17 :: b18 :: b19 :: b20 :: b21 :: b22 :: b23 :: b24 :: b25 :: b26 ::
      b27 :: b28 :: b29 :: b30 :: b31 :: b32 :: b33 :: b34 :: b35 :: b36 :: b37 :: b38 :: b39 ::
      b40 :: rest) t2 t3))⟩ := by
  have hn14 : ¬ n < 14 := by omega
  simp only [iteration, decodeRequest_cons, encodeResponse_eq, wireLayout_cons, buildResponse, hn14]
  obtain ⟨s0, s1, s2, s3⟩ := uint32_bytes b0 b1 b2 b3
  obtain ⟨e0, e1⟩ := uint16_bytes b12 b13
  simp only [Nat.reducePow] at s0 s1 s2 e0
  cases sendErr <;>
    simp [bind, Exec.andThen, pure, Exec.ret, effect, orPanic, s0, s1, s2, s3, e0, e1,
      BE64_uint64, BEValue_four, byte_zero]


theorem exists_cons_of_succ_le (l : List Byte) (k : Nat) (h : k + 1 ≤ l.length) :
    ∃ a t, l = a :: t ∧ k ≤ t.length := by
  cases l with
  | nil => simp at h
  | cons a t => exact ⟨a, t, rfl, by simpa using h⟩

/-- A list of at least 41 bytes, taken apart. -/
theorem exists_cons41 (b : List Byte) (h : 41 ≤ b.length) :
    ∃ b0 b1 b2 b3 b4 b5 b6 b7 b8 b9 b10 b11 b12 b13 b14 b15 b16 b17 b18 b19 b20 b21 b22 b23 b24
      b25 b26 b27 b28 b29 b30 b31 b32 b33 b34 b35 b36 b37 b38 b39 b40 rest,
      b = b0 :: b1 :: b2 :: b3 :: b4 :: b5 :: b6 :: b7 :: b8 :: b9 :: b10 :: b11 :: b12 :: b13 ::
        b14 :: b15 :: b16 :: b17 :: b18 :: b19 :: b20 :: b21 :: b22 :: b23 :: b24 :: b25 :: b26 ::
        b27 :: b28 :: b29 :: b30 :: b31 :: b32 :: b33 :: b34 :: b35 :: b36 :: b37 :: b38 :: b39 ::
        b40 :: rest := by
  obtain ⟨b0, l0, rfl, h0⟩ := exists_cons_of_succ_le b 40 h
  obtain ⟨b1, l1, rfl, h1⟩ := exists_cons_of_succ_le l0 39 h0
  obtain ⟨b2, l2, rfl, h2⟩ := exists_cons_of_succ_le l1 38 h1
  obtain ⟨b3, l3, rfl, h3⟩ := exists_cons_of_succ_le l2 37 h2
  obtain ⟨b4, l4, rfl, h4⟩ := exists_cons_of_succ_le l3 36 h3
  obtain ⟨b5, l5, rfl, h5⟩ := exists_cons_of_succ_le l4 35 h4
  obtain ⟨b6, l6, rfl, h6⟩ := exists_cons_of_succ_le l5 34 h5
  obtain ⟨b7, l7, rfl, h7⟩ := exists_cons_of_succ_le l6 33 h6
  obtain ⟨b8, l8, rfl, h8⟩ := exists_cons_of_succ_le l7 32 h7
  obtain ⟨b9, l9, rfl, h9⟩ := exists_cons_of_succ_le l8 31 h8
  obtain ⟨b10, l10, rfl, h10⟩ := exists_cons_of_succ_le l9 30 h9
  obtain ⟨b11, l11, rfl, h11⟩ := exists_cons_of_succ_le l10 29 h10
  obtain ⟨b12, l12, rfl, h12⟩ := exists_cons_of_succ_le l11 28 h11
  obtain ⟨b13, l13, rfl, h13⟩ := exists_cons_of_succ_le l12 27 h12
  obtain ⟨b14, l14, rfl, h14⟩ := exists_cons_of_succ_le l13 26 h13
  obtain ⟨b15, l15, rfl, h15⟩ := exists_cons_of_succ_le l14 25 h14
  obtain ⟨b16, l16, rfl, h16⟩ := exists_cons_of_succ_le l15 24 h15
  obtain ⟨b17, l17, rfl, h17⟩ := exists_cons_of_succ_le l16 23 h16
  obtain ⟨b18, l18, rfl, h18⟩ := exists_cons_of_succ_le l17 22 h17
  obtain ⟨b19, l19, rfl, h19⟩ := exists_cons_of_succ_le l18 21 h18
  obtain ⟨b20, l20, rfl, h20⟩ := exists_cons_of_succ_le l19 20 h19
  obtain ⟨b21, l21, rfl, h21⟩ := exists_cons_of_succ_le l20 19 h20
  obtain ⟨b22, l22, rfl, h22⟩ := exists_cons_of_succ_le l21 18 h21
  obtain ⟨b23, l23, rfl, h23⟩ := exists_cons_of_succ_le l22 17 h22
  obtain ⟨b24, l24, rfl, h24⟩ := exists_cons_of_succ_le l23 16 h23
  obtain ⟨b25, l25, rfl, h25⟩ := exists_cons_of_succ_le l24 15 h24
  obtain ⟨b26, l26, rfl, h26⟩ := exists_cons_of_succ_le l25 14 h25
  obtain ⟨b27, l27, rfl, h27⟩ := exists_cons_of_succ_le l26 13 h26
  obtain ⟨b28, l28, rfl, h28⟩ := exists_cons_of_succ_le l27 12 h27
  obtain ⟨b29, l29, rfl, h29⟩ := exists_cons_of_succ_le l28 11 h28
  obtain ⟨b30, l30, rfl, h30⟩ := exists_cons_of_succ_le l29 10 h29
  obtain ⟨b31, l31, rfl, h31⟩ := exists_cons_of_succ_le l30 9 h30
  obtain ⟨b32, l32, rfl, h32⟩ := exists_cons_of_succ_le l31 8 h31
  obtain ⟨b33, l33, rfl, h33⟩ := exists_cons_of_succ_le l32 7 h32
  obtain ⟨b34, l34, rfl, h34⟩ := exists_cons_of_succ_le l33 6 h33
  obtain ⟨b35, l35, rfl, h35⟩ := exists_cons_of_succ_le l34 5 h34
  obtain ⟨b36, l36, rfl, h36⟩ := exists_cons_of_succ_le l35 4 h35
  obtain ⟨b37, l37, rfl, h37⟩ := exists_cons_of_succ_le l36 3 h36
  obtain ⟨b38, l38, rfl, h38⟩ := exists_cons_of_succ_le l37 2 h37
  obtain ⟨b39, l39, rfl, h39⟩ := exists_cons_of_succ_le l38 1 h38
  obtain ⟨b40, l40, rfl, h40⟩ := exists_cons_of_succ_le l39 0 h39
  exact ⟨b0, b1, b2, b3, b4, b5, b6, b7, b8, b9, b10, b11, b12, b13, b14, b15, b16, b17, b18, b19,
    b20, b21, b22, b23, b24, b25, b26, b27, b28, b29, b30, b31, b32, b33, b34, b35, b36, b37,
    b38, b39, b40, l40, rfl⟩

/-- A datagram of at least 14 bytes in a receive buffer of at least 41 bytes: the iteration
performs exactly these effects and sends the packet laid out by `wireLayout`. -/
theorem iteration_sent (buffer : List Byte) (n : Nat) (t2 t3 : Time) (sendErr : Bool)
    (hlen : 41 ≤ buffer.length) (hn : 14 ≤ n) :
    iteration buffer n false t2 t3 sendErr =
      ⟨[.timeNow t2, .bufferSlice 0 4, .bufferSlice 4 12, .bufferSlice 12 14, .bufferIndex 40,
          .logPrintf (.received (BEValue (bytes buffer 0 4))), .timeNow t3,
          .writeToUDP (wireLayout buffer t2 t3)] ++
          (if sendErr then [.logPrintf .sendError] else []),
        some (.sent (wireLayout buffer t2 t3))⟩ := by
  obtain ⟨b0, b1, b2, b3, b4, b5, b6, b7, b8, b9, b10, b11, b12, b13, b14, b15, b16, b17, b18,
    b19, b20, b21, b22, b23, b24, b25, b26, b27, b28, b29, b30, b31, b32, b33, b34, b35, b36, b37,
    b38, b39, b40, rest, rfl⟩ := exists_cons41 buffer hlen
  rw [iteration_cons _ _ _ _ _ _ _ _ _ _ _ _ _ _ _ _ _ _ _ _ _ _ _ _ _ _ _ _ _ _ _ _ _ _ _ _ _
    _ _ _ _ _ _ _ _ _ hn]
  simp [bytes]

/-- A datagram shorter than 14 bytes: the iteration reads the clock, logs and goes on to the next
read, whatever the receive buffer holds. -/
theorem iteration_short (buffer : List Byte) (n : Nat) (t2 t3 : Time) (sendErr : Bool)
    (hn : n < 14) :
    iteration buffer n false t2 t3 sendErr =
      ⟨[.timeNow t2, .logPrintf .tooSmall], some .skipped⟩ := by
  simp [iteration, hn, bind, Exec.andThen, pure, Exec.ret, effect]

/-- A failed read: the iteration logs and goes on to the next read. -/
theorem iteration_readErr (buffer : List Byte) (n : Nat) (t2 t3 : Time) (sendErr : Bool) :
    iteration buffer n true t2 t3 sendErr = ⟨[.logPrintf .readError], some .skipped⟩ := by
  simp [iteration, bind, Exec.andThen, pure, Exec.ret, effect]

/-- Every packet sent is the encoding of a response packet built from a decoded request. -/
theorem iteration_sent_inv (buffer : List Byte) (n : Nat) (readErr : Bool) (t2 t3 : Time)
    (sendErr : Bool) (reply : List Byte)
    (h : (iteration buffer n readErr t2 t3 sendErr).result = some (.sent reply)) :
    readErr = false ∧ 14 ≤ n ∧
      ∃ req, (decodeRequest buffer).result = some req ∧
        encodeResponse (buildResponse req t2 t3) = some reply := by
  cases readErr with
  | true => rw [iteration_readErr] at h; simp at h
  | false =>
    by_cases hn : n < 14
    · rw [iteration_short _ _ _ _ _ hn] at h; simp at h
    · refine ⟨rfl, by omega, ?_⟩
      cases hd : (decodeRequest buffer).result with
      | none =>
        simp [iteration, hn, bind, Exec.andThen, pure, Exec.ret, effect, hd] at h
      | some req =>
        refine ⟨req, rfl, ?_⟩
        rw [encodeResponse_eq]
        cases sendErr <;>
          simp [iteration, hn, bind, Exec.andThen, pure, Exec.ret, effect, orPanic, hd,
            encodeResponse_eq] at h <;> simpa using h


/-- The fields of the packet laid out by `wireLayout`, read back at their offsets. -/
theorem wireLayout_fields (b : List Byte) (t2 t3 : Time) (h : 41 ≤ b.length) :
    (wireLayout b t2 t3).length = 56 ∧
    bytes (wireLayout b t2 t3) 0 4 = bytes b 0 4 ∧
    bytes (wireLayout b t2 t3) 4 12 = BE64 (toNTPTimestamp t3) ∧
    bytes (wireLayout b t2 t3) 12 14 = bytes b 12 14 ∧
    bytes (wireLayout b t2 t3) 14 16 = [0, 0] ∧
    bytes (wireLayout b t2 t3) 16 24 = BE64 (toNTPTimestamp t2) ∧
    bytes (wireLayout b t2 t3) 24 28 = bytes b 0 4 ∧
    bytes (wireLayout b t2 t3) 28 36 = bytes b 4 12 ∧
    bytes (wireLayout b t2 t3) 36 38 = [0, 0] ∧
    bytes (wireLayout b t2 t3) 38 40 = [0, 0] ∧
    bytes (wireLayout b t2 t3) 40 41 = bytes b 40 41 ∧
    bytes (wireLayout b t2 t3) 41 56 = List.replicate 15 0 := by
  obtain ⟨b0, b1, b2, b3, b4, b5, b6, b7, b8, b9, b10, b11, b12, b13, b14, b15, b16, b17, b18,
    b19, b20, b21, b22, b23, b24, b25, b26, b27, b28, b29, b30, b31, b32, b33, b34, b35, b36, b37,
    b38, b39, b40, rest, rfl⟩ := exists_cons41 b h
  rw [wireLayout_cons]
  simp [bytes, BE64]

/-! ## The socket read -/

theorem freshBuffer_length : freshBuffer.length = 1500 :=
  List.length_replicate 1500 0

theorem readFromUDP_length (old d : List Byte) :
    (readFromUDP old d).2.length = old.length := by
  simp only [readFromUDP, List.length_append, List.length_take, List.length_drop]
  omega

theorem readFromUDP_count (old d : List Byte) :
    (readFromUDP old d).1 = min d.length old.length := rfl

/-- The bytes of the buffer below the length returned by the read are the bytes of the
datagram. -/
theorem readFromUDP_bytes (old d : List Byte) (lo hi : Nat)
    (h : hi ≤ (readFromUDP old d).1) :
    bytes (readFromUDP old d).2 lo hi = bytes d lo hi := by
  simp only [readFromUDP] at h
  simp only [readFromUDP, bytes]
  rw [List.take_append_of_le_length (by simp only [List.length_take]; omega), List.take_take]
  congr 2
  omega

/-- One iteration including the read of a datagram. -/
theorem loopBody_datagram (old d : List Byte) (t2 t3 : Time) (sendErr : Bool) :
    loopBody old ⟨some d, t2, t3, sendErr⟩ =
      ⟨(iteration (readFromUDP old d).2 (readFromUDP old d).1 false t2 t3 sendErr).trace,
        (iteration (readFromUDP old d).2 (readFromUDP old d).1 false t2 t3 sendErr).result.map
          fun r => ((readFromUDP old d).2, r)⟩ := by
  simp only [loopBody, bind, Exec.andThen, pure, Exec.ret]
  cases (iteration (readFromUDP old d).2 (readFromUDP old d).1 false t2 t3 sendErr).result <;>
    simp


/-- A datagram of at least 14 bytes read into the receive buffer of 1500 bytes: the iteration
sends the packet laid out by `wireLayout` for the buffer as the read left it. -/
theorem loopBody_sent (old d : List Byte) (t2 t3 : Time) (sendErr : Bool)
    (hold : old.length = 1500) (hd : 14 ≤ d.length) :
    (loopBody old ⟨some d, t2, t3, sendErr⟩).result =
      some ((readFromUDP old d).2, .sent (wireLayout (readFromUDP old d).2 t2 t3)) := by
  have hlen := readFromUDP_length old d
  have hcount := readFromUDP_count old d
  rw [loopBody_datagram, iteration_sent _ _ _ _ _ (by omega) (by omega)]
  rfl

/-- Bytes of the buffer at or above the length returned by the read keep their values. -/
theorem readFromUDP_bytes_stale (old d : List Byte) (lo hi : Nat)
    (h : (readFromUDP old d).1 ≤ lo) :
    bytes (readFromUDP old d).2 lo hi = bytes old lo hi := by
  simp only [readFromUDP] at h
  simp only [readFromUDP, bytes]
  apply List.ext_getElem?
  intro i
  simp only [List.getElem?_drop, List.getElem?_take, List.getElem?_append, List.length_take]
  by_cases hi2 : lo + i < hi
  · simp only [hi2, if_true]
    rw [if_neg (by omega)]
    congr 1
    omega
  · simp only [hi2, if_false]

/-- The byte at offset `i` is the one byte of `bytes l i (i + 1)`. -/
theorem getElem?_eq_bytes (l : List Byte) (i : Nat) : l[i]? = (bytes l i (i + 1))[0]? := by
  simp [bytes, List.getElem?_drop, List.getElem?_take]

theorem serveFrom_cons (buffer b : List Byte) (x : Inbound) (xs : List Inbound) (r : Step)
    (h : (loopBody buffer x).result = some (b, r)) :
    serveFrom buffer (x :: xs) =
      ⟨(loopBody buffer x).trace ++ (serveFrom b xs).trace,
        (serveFrom b xs).result.map fun rs => r :: rs⟩ := by
  simp only [serveFrom, bind, Exec.andThen, pure, Exec.ret, h]
  cases (serveFrom b xs).result <;> simp

theorem serveFrom_nil (buffer : List Byte) : serveFrom buffer [] = ⟨[], some []⟩ := rfl

/-- The result of `toNTPTimestamp` does not decrease with time as long as the 32-bit seconds do
not roll over between the two instants. -/
theorem toNTPTimestamp_mono (t2 t3 : Time)
    (h2 : t2.nanosecond < 1000000000) (h3 : t3.nanosecond < 1000000000)
    (hle : t2.notAfter t3)
    (hera : (t2.unix + 2208988800) / 2 ^ 32 = (t3.unix + 2208988800) / 2 ^ 32) :
    toNTPTimestamp t2 ≤ toNTPTimestamp t3 := by
  rw [toNTPTimestamp_eq t2 h2, toNTPTimestamp_eq t3 h3]
  have hf2 := fraction_lt t2.nanosecond h2
  have hf3 := fraction_lt t3.nanosecond h3
  rcases hle with hlt | ⟨heq, hns⟩
  · have hs : ((t2.unix + 2208988800) % 2 ^ 32).toNat + 1 ≤
        ((t3.unix + 2208988800) % 2 ^ 32).toNat := by omega
    generalize ((t2.unix + 2208988800) % 2 ^ 32).toNat = a2 at hs ⊢
    generalize ((t3.unix + 2208988800) % 2 ^ 32).toNat = a3 at hs ⊢
    generalize t2.nanosecond * 2 ^ 32 / 1000000000 = f2 at hf2 ⊢
    generalize t3.nanosecond * 2 ^ 32 / 1000000000 = f3 at hf3 ⊢
    omega
  · rw [heq]
    have hfr : t2.nanosecond * 2 ^ 32 / 1000000000 ≤ t3.nanosecond * 2 ^ 32 / 1000000000 :=
      Nat.div_le_div_right (Nat.mul_le_mul_right _ hns)
    omega

theorem samplePacket14_length : samplePacket14.length = 14 := by decide

theorem samplePacket41_length : samplePacket41.length = 41 := by decide

/-- The closed form inside NTP era 0. -/
theorem toNTPTimestamp_era0 (t : Time)
    (hlo : -2208988800 ≤ t.unix) (hhi : t.unix < 2085978496)
    (hn : t.nanosecond < 1000000000) :
    ∃ secs : Nat, (secs : Int) = t.unix + 2208988800 ∧ secs < 2 ^ 32 ∧
      toNTPTimestamp t = secs * 2 ^ 32 + t.nanosecond * 2 ^ 32 / 1000000000 := by
  have heq := toNTPTimestamp_eq t hn
  have hmod : (t.unix + 2208988800) % 2 ^ 32 = t.unix + 2208988800 :=
    Int.emod_eq_of_lt (by omega) (by omega)
  refine ⟨(t.unix + 2208988800).toNat, by omega, by omega, ?_⟩
  rw [hmod] at heq
  exact heq

/-- The truncated fraction grows strictly with the nanoseconds. -/
theorem fraction_strictMono (n1 n2 : Nat) (h : n1 < n2) :
    n1 * 2 ^ 32 / 1000000000 < n2 * 2 ^ 32 / 1000000000 := by
  omega

/-- The encoding is zero only on a rollover instant: whole seconds since 1900 a multiple of
`2 ^ 32` and no nanoseconds. -/
theorem toNTPTimestamp_ne_zero (t : Time) (hn : t.nanosecond < 1000000000)
    (hnz : ¬ ((t.unix + 2208988800) % 2 ^ 32 = 0 ∧ t.nanosecond = 0)) :
    toNTPTimestamp t ≠ 0 := by
  rw [toNTPTimestamp_eq t hn]
  have hnn : 0 ≤ (t.unix + 2208988800) % 2 ^ 32 := Int.emod_nonneg _ (by norm_num)
  by_cases hs : (t.unix + 2208988800) % 2 ^ 32 = 0
  · have hpos : 0 < t.nanosecond := by
      rcases Nat.eq_zero_or_pos t.nanosecond with h | h
      · exact absurd ⟨hs, h⟩ hnz
      · exact h
    omega
  · omega

theorem samplePacket41_fields :
    bytes samplePacket41 0 4 = [0, 0, 0, 1] ∧
    bytes samplePacket41 4 12 = [0, 0, 0, 0, 0, 0, 0, 0] ∧
    bytes samplePacket41 12 14 = [0, 0] ∧
    bytes samplePacket41 40 41 = [0x40] := by
  decide

theorem bufferAfter_length (xs : List Inbound) :
    ∀ buffer : List Byte, (bufferAfter buffer xs).length = buffer.length := by
  induction xs with
  | nil => intro buffer; rfl
  | cons x xs ih =>
    intro buffer
    cases hx : x.datagram with
    | none => simp only [bufferAfter, hx]; exact ih buffer
    | some d =>
      simp only [bufferAfter, hx]
      rw [ih, readFromUDP_length]

/-- One iteration of the loop on a buffer of 1500 bytes never panics, and leaves the buffer as
the read left it. -/
theorem loopBody_total (buffer : List Byte) (x : Inbound) (h : buffer.length = 1500) :
    ∃ r, (loopBody buffer x).result = some (bufferAfter buffer [x], r) := by
  obtain ⟨dg, t2, t3, se⟩ := x
  cases dg with
  | none =>
    refine ⟨.skipped, ?_⟩
    simp only [loopBody, bufferAfter, iteration_readErr, bind, Exec.andThen, pure, Exec.ret]
  | some d =>
    by_cases hd : 14 ≤ d.length
    · exact ⟨_, loopBody_sent buffer d t2 t3 se h hd⟩
    · refine ⟨.skipped, ?_⟩
      have hcount := readFromUDP_count buffer d
      rw [loopBody_datagram, iteration_short _ _ _ _ _ (by omega)]
      rfl

/-- The loop run on a sequence of events, split at any point: the first part never panics and
hands its buffer to the rest. -/
theorem serveFrom_append (pre rest : List Inbound) :
    ∀ buffer : List Byte, buffer.length = 1500 →
      ∃ rs : List Step, rs.length = pre.length ∧
        (serveFrom buffer (pre ++ rest)).result =
          (serveFrom (bufferAfter buffer pre) rest).result.map fun rs2 => rs ++ rs2 := by
  induction pre with
  | nil =>
    intro buffer _
    refine ⟨[], rfl, ?_⟩
    simp only [List.nil_append, bufferAfter]
    cases (serveFrom buffer rest).result <;> simp
  | cons x xs ih =>
    intro buffer h
    obtain ⟨r, hr⟩ := loopBody_total buffer x h
    have hlen : (bufferAfter buffer [x]).length = 1500 := by rw [bufferAfter_length, h]
    obtain ⟨rs, hrs, hrest⟩ := ih (bufferAfter buffer [x]) hlen
    have hb : bufferAfter (bufferAfter buffer [x]) xs = bufferAfter buffer (x :: xs) := by
      cases hx : x.datagram <;> simp [bufferAfter, hx]
    refine ⟨r :: rs, by simp [hrs], ?_⟩
    rw [List.cons_append, serveFrom_cons _ _ _ _ _ hr, hrest, hb]
    cases (serveFrom (bufferAfter buffer (x :: xs)) rest).result <;> simp

/-- The loop run on a buffer of 1500 bytes never panics. -/
theorem serveFrom_total (xs : List Inbound) (buffer : List Byte) (h : buffer.length = 1500) :
    ∃ rs, (serveFrom buffer xs).result = some rs := by
  obtain ⟨rs, _, hrs⟩ := serveFrom_append xs [] buffer h
  rw [List.append_nil, serveFrom_nil] at hrs
  exact ⟨_, hrs⟩

/-- Byte 40 of the buffer after a read: the datagram's when it has one, the old one otherwise. -/
theorem readFromUDP_byte40 (buffer d : List Byte) (h : buffer.length = 1500) :
    (readFromUDP buffer d).2[40]? = if 41 ≤ d.length then d[40]? else buffer[40]? := by
  have hcount := readFromUDP_count buffer d
  by_cases hd : 41 ≤ d.length
  · rw [if_pos hd, getElem?_eq_bytes, readFromUDP_bytes _ _ _ _ (by omega), ← getElem?_eq_bytes]
  · rw [if_neg hd, getElem?_eq_bytes, readFromUDP_bytes_stale _ _ _ _ (by omega),
      ← getElem?_eq_bytes]

/-- Byte 40 of the buffer after a sequence of reads is byte 40 of the last datagram of at least
41 bytes, and the buffer's original byte 40 if there is none. -/
theorem bufferAfter_byte40 (xs : List Inbound) :
    ∀ buffer : List Byte, buffer.length = 1500 →
      (bufferAfter buffer xs)[40]? =
        some (match lastLongDatagram (xs.filterMap fun x => x.datagram) with
          | some d => d.getD 40 0
          | none => buffer.getD 40 0) := by
  induction xs with
  | nil =>
    intro buffer h
    simp only [bufferAfter, lastLongDatagram, List.filterMap_nil, List.filter_nil,
      List.getLast?_nil]
    rw [List.getD_eq_getElem?_getD, List.getElem?_eq_getElem (by omega)]
    rfl
  | cons x xs ih =>
    intro buffer h
    cases hx : x.datagram with
    | none =>
      simp only [bufferAfter, hx, List.filterMap_cons]
      exact ih buffer h
    | some d =>
      have hlen : (readFromUDP buffer d).2.length = 1500 := by rw [readFromUDP_length, h]
      have h40 := readFromUDP_byte40 buffer d h
      simp only [bufferAfter, hx, List.filterMap_cons]
      rw [ih _ hlen]
      congr 1
      simp only [lastLongDatagram]
      by_cases hd : 41 ≤ d.length
      · rw [List.filter_cons_of_pos (by simpa using hd), List.getLast?_cons]
        cases hl : (List.filter (fun d => decide (41 ≤ d.length))
            (List.filterMap (fun x => x.datagram) xs)).getLast? with
        | none =>
          simp only [Option.getD_none]
          rw [List.getD_eq_getElem?_getD, List.getD_eq_getElem?_getD, h40, if_pos hd]
        | some e => simp
      · rw [List.filter_cons_of_neg (by simpa using hd)]
        cases hl : (List.filter (fun d => decide (41 ≤ d.length))
            (List.filterMap (fun x => x.datagram) xs)).getLast? with
        | none =>
          simp only
          rw [List.getD_eq_getElem?_getD, List.getD_eq_getElem?_getD, h40, if_neg hd]
        | some e => simp

theorem freshBuffer_byte40 : freshBuffer.getD 40 0 = 0 := by
  rw [List.getD_eq_getElem?_getD, getElem?_eq_bytes]
  simp only [bytes, freshBuffer, List.take_replicate, List.drop_replicate]
  rfl

/-! ## The claims -/

/-- C1. Round-trip echo: for every datagram of at least 14 bytes read into the receive buffer, the
iteration sends a reply whose bytes 24..27 (Sender Sequence) are the datagram's bytes 0..3 and
whose bytes 28..35 (Sender Timestamp) are the datagram's bytes 4..11; and decoding four (eight)
bytes with `Uint32` (`Uint64`) then writing the value with `PutUint32` (`PutUint64`) gives the
same bytes. -/
theorem echo_roundtrip (old d : List Byte) (t2 t3 : Time) (sendErr : Bool)
    (hold : old.length = 1500) (hd : 14 ≤ d.length) :
    (∃ buffer reply,
      (loopBody old ⟨some d, t2, t3, sendErr⟩).result = some (buffer, .sent reply) ∧
      bytes reply 24 28 = bytes d 0 4 ∧ bytes reply 28 36 = bytes d 4 12) ∧
    (∀ s : List Byte, s.length = 4 → ∃ v, Uint32 s = some v ∧ PutUint32 v s = some s) ∧
    (∀ s : List Byte, s.length = 8 → ∃ v, Uint64 s = some v ∧ PutUint64 v s = some s) := by
  have hlen := readFromUDP_length old d
  have hcount := readFromUDP_count old d
  refine ⟨⟨_, _, loopBody_sent old d t2 t3 sendErr hold hd, ?_, ?_⟩, ?_, ?_⟩
  · rw [(wireLayout_fields _ t2 t3 (by omega)).2.2.2.2.2.2.1]
    exact readFromUDP_bytes old d 0 4 (by omega)
  · rw [(wireLayout_fields _ t2 t3 (by omega)).2.2.2.2.2.2.2.1]
    exact readFromUDP_bytes old d 4 12 (by omega)
  · intro s hs
    match s, hs with
    | [b0, b1, b2, b3], _ => exact ⟨_, rfl, put32_of_uint32 b0 b1 b2 b3 []⟩
  · intro s hs
    match s, hs with
    | [b0, b1, b2, b3, b4, b5, b6, b7], _ =>
      exact ⟨_, rfl, put64_of_uint64 b0 b1 b2 b3 b4 b5 b6 b7 []⟩

/-- Witness of C1: the 14-byte sample packet read into the fresh buffer. -/
theorem echo_roundtrip_witness :
    freshBuffer.length = 1500 ∧ 14 ≤ samplePacket14.length ∧
    ((∃ buffer reply,
      (loopBody freshBuffer ⟨some samplePacket14, unixEpoch, unixEpoch, false⟩).result
          = some (buffer, .sent reply) ∧
      bytes reply 24 28 = bytes samplePacket14 0 4 ∧
      bytes reply 28 36 = bytes samplePacket14 4 12) ∧
    (∀ s : List Byte, s.length = 4 → ∃ v, Uint32 s = some v ∧ PutUint32 v s = some s) ∧
    (∀ s : List Byte, s.length = 8 → ∃ v, Uint64 s = some v ∧ PutUint64 v s = some s)) :=
  ⟨freshBuffer_length, by decide,
    echo_roundtrip freshBuffer samplePacket14 unixEpoch unixEpoch false freshBuffer_length
      (by decide)⟩

/-- C2. Wire layout: for every receive buffer `b` of 1500 bytes holding a datagram of length
`n ≥ 14`, and all clock readings `t2`, `t3`, the iteration sends exactly
`b[0..4] ++ BE64 (toNTPTimestamp t3) ++ b[12..14] ++ [0,0] ++ BE64 (toNTPTimestamp t2) ++ b[0..4] ++
b[4..12] ++ [0,0] ++ [0,0] ++ [b[40]] ++` fifteen zero bytes, which are 56 bytes; `b[40..41]` is
the single byte `b[40]`, and the two timestamps read back with `Uint64` as the values encoded. -/
theorem wire_layout (b : List Byte) (n : Nat) (t2 t3 : Time) (sendErr : Bool)
    (hb : b.length = 1500) (hn : 14 ≤ n) :
    (iteration b n false t2 t3 sendErr).result = some (.sent
      (bytes b 0 4 ++ BE64 (toNTPTimestamp t3) ++ bytes b 12 14 ++ [0, 0] ++
        BE64 (toNTPTimestamp t2) ++ bytes b 0 4 ++ bytes b 4 12 ++ [0, 0] ++ [0, 0] ++
        bytes b 40 41 ++ List.replicate 15 0)) ∧
    (bytes b 0 4 ++ BE64 (toNTPTimestamp t3) ++ bytes b 12 14 ++ [0, 0] ++
        BE64 (toNTPTimestamp t2) ++ bytes b 0 4 ++ bytes b 4 12 ++ [0, 0] ++ [0, 0] ++
        bytes b 40 41 ++ List.replicate 15 0).length = 56 ∧
    (∃ ttl, b[40]? = some ttl ∧ bytes b 40 41 = [ttl]) ∧
    Uint64 (BE64 (toNTPTimestamp t3)) = some (toNTPTimestamp t3) ∧
    Uint64 (BE64 (toNTPTimestamp t2)) = some (toNTPTimestamp t2) := by
  refine ⟨?_, ?_, ?_, uint64_BE64 _ (toNTPTimestamp_lt t3), uint64_BE64 _ (toNTPTimestamp_lt t2)⟩
  · rw [iteration_sent b n t2 t3 sendErr (by omega) hn]
    rfl
  · exact (wireLayout_fields b t2 t3 (by omega)).1
  · obtain ⟨b0, b1, b2, b3, b4, b5, b6, b7, b8, b9, b10, b11, b12, b13, b14, b15, b16, b17, b18,
      b19, b20, b21, b22, b23, b24, b25, b26, b27, b28, b29, b30, b31, b32, b33, b34, b35, b36,
      b37, b38, b39, b40, rest, rfl⟩ := exists_cons41 b (by omega)
    exact ⟨b40, by simp, by simp [bytes]⟩

/-- Witness of C2: a 14-byte datagram in the fresh buffer. -/
theorem wire_layout_witness :
    freshBuffer.length = 1500 ∧ (14 : Nat) ≤ 14 ∧
    (iteration freshBuffer 14 false unixEpoch lastOfEra0 false).result = some (.sent
      (bytes freshBuffer 0 4 ++ BE64 (toNTPTimestamp lastOfEra0) ++ bytes freshBuffer 12 14 ++
        [0, 0] ++ BE64 (toNTPTimestamp unixEpoch) ++ bytes freshBuffer 0 4 ++
        bytes freshBuffer 4 12 ++ [0, 0] ++ [0, 0] ++ bytes freshBuffer 40 41 ++
        List.replicate 15 0)) :=
  ⟨freshBuffer_length, le_refl 14,
    (wire_layout freshBuffer 14 unixEpoch lastOfEra0 false freshBuffer_length (le_refl 14)).1⟩

/-- C3. NTP encoding: for Unix seconds `s` in `[-2208988800, 2085978496)` and a nanosecond part
`n < 10^9`, `toNTPTimestamp` is `(s + 2208988800) * 2^32 + n * 2^32 / 10^9` (truncating
division), a 64-bit value whose high 32 bits are `s + 2208988800` and whose low 32 bits are the
fraction; the fraction is below `2^32`, and `n << 32` does not overflow 64 bits. -/
theorem toNTPTimestamp_semantics (t : Time)
    (hlo : -2208988800 ≤ t.unix) (hhi : t.unix < 2085978496)
    (hn : t.nanosecond < 1000000000) :
    (toNTPTimestamp t : Int) =
      (t.unix + 2208988800) * 2 ^ 32 + ((t.nanosecond * 2 ^ 32 / 1000000000 : Nat) : Int) ∧
    toNTPTimestamp t < 2 ^ 64 ∧
    ((toNTPTimestamp t / 2 ^ 32 : Nat) : Int) = t.unix + 2208988800 ∧
    toNTPTimestamp t % 2 ^ 32 = t.nanosecond * 2 ^ 32 / 1000000000 ∧
    t.nanosecond * 2 ^ 32 / 1000000000 < 2 ^ 32 ∧
    uint64OfInt (t.nanosecond : Int) <<< 32 < 2 ^ 64 := by
  have hf := fraction_lt t.nanosecond hn
  have heq := toNTPTimestamp_eq t hn
  have hnanos : uint64OfInt (t.nanosecond : Int) = t.nanosecond := by
    unfold uint64OfInt; omega
  have hmod : (t.unix + 2208988800) % 2 ^ 32 = t.unix + 2208988800 :=
    Int.emod_eq_of_lt (by omega) (by omega)
  obtain ⟨secs, hsecs⟩ : ∃ secs : Nat, (secs : Int) = t.unix + 2208988800 :=
    ⟨(t.unix + 2208988800).toNat, by omega⟩
  rw [hmod, ← hsecs, Int.toNat_ofNat] at heq
  rw [hnanos, Nat.shiftLeft_eq, ← hsecs]
  generalize t.nanosecond * 2 ^ 32 / 1000000000 = frac at heq hf ⊢
  refine ⟨by omega, toNTPTimestamp_lt t, by omega, by omega, hf, by omega⟩

/-- Witness of C3: the last nanosecond before the 2036 rollover. -/
theorem toNTPTimestamp_semantics_witness :
    (toNTPTimestamp lastOfEra0 : Int) =
      (lastOfEra0.unix + 2208988800) * 2 ^ 32 +
        ((lastOfEra0.nanosecond * 2 ^ 32 / 1000000000 : Nat) : Int) ∧
    toNTPTimestamp lastOfEra0 < 2 ^ 64 ∧
    ((toNTPTimestamp lastOfEra0 / 2 ^ 32 : Nat) : Int) = lastOfEra0.unix + 2208988800 ∧
    toNTPTimestamp lastOfEra0 % 2 ^ 32 = lastOfEra0.nanosecond * 2 ^ 32 / 1000000000 ∧
    lastOfEra0.nanosecond * 2 ^ 32 / 1000000000 < 2 ^ 32 ∧
    uint64OfInt (lastOfEra0.nanosecond : Int) <<< 32 < 2 ^ 64 :=
  toNTPTimestamp_semantics lastOfEra0 (by decide) (by decide) (by decide)


/-- C4, counterexample. With the receive clock reading at the last nanosecond before
2036-02-07T06:28:16Z and the send clock reading at that instant, both well-formed and the first not
later than the second, the reply's Receive Timestamp (bytes 16..23) reads `2^64 - 5` and its
Timestamp (bytes 4..11) reads `0`: the Receive Timestamp is the greater. -/
theorem timestamp_ordering_counterexample :
    lastOfEra0.wellFormed ∧ firstOfEra1.wellFormed ∧ lastOfEra0.notAfter firstOfEra1 ∧
    ∃ reply,
      (iteration freshBuffer 14 false lastOfEra0 firstOfEra1 false).result = some (.sent reply) ∧
      Uint64 (bytes reply 16 24) = some 18446744073709551611 ∧
      Uint64 (bytes reply 4 12) = some 0 ∧
      ¬ (18446744073709551611 ≤ 0) := by
  have hlen : 41 ≤ freshBuffer.length := by rw [freshBuffer_length]; decide
  have hf := wireLayout_fields freshBuffer lastOfEra0 firstOfEra1 hlen
  have e2 : toNTPTimestamp lastOfEra0 = 18446744073709551611 := by decide
  have e3 : toNTPTimestamp firstOfEra1 = 0 := by decide
  refine ⟨by decide, by decide, by decide, wireLayout freshBuffer lastOfEra0 firstOfEra1,
    ?_, ?_, ?_, by decide⟩
  · rw [iteration_sent freshBuffer 14 lastOfEra0 firstOfEra1 false hlen (le_refl 14)]
  · rw [hf.2.2.2.2.2.1, uint64_BE64 _ (toNTPTimestamp_lt _), e2]
  · rw [hf.2.2.1, uint64_BE64 _ (toNTPTimestamp_lt _), e3]

/-- C4, as amended. For every receive buffer of 1500 bytes holding a datagram of length `n ≥ 14`
and clock readings `t2`, `t3` with nanosecond parts below `10^9`, `t2` not later than `t3`, and no
rollover of the 32-bit NTP seconds between them (the seconds since 1900 of both have the same
quotient by `2^32`), the reply's bytes 16..23 read `toNTPTimestamp t2`, its bytes 4..11 read
`toNTPTimestamp t3`, and the former is at most the latter. -/
theorem timestamp_ordering_same_era (b : List Byte) (n : Nat) (t2 t3 : Time) (sendErr : Bool)
    (hb : b.length = 1500) (hn : 14 ≤ n)
    (h2 : t2.nanosecond < 1000000000) (h3 : t3.nanosecond < 1000000000)
    (hle : t2.notAfter t3)
    (hera : (t2.unix + 2208988800) / 2 ^ 32 = (t3.unix + 2208988800) / 2 ^ 32) :
    ∃ reply,
      (iteration b n false t2 t3 sendErr).result = some (.sent reply) ∧
      Uint64 (bytes reply 16 24) = some (toNTPTimestamp t2) ∧
      Uint64 (bytes reply 4 12) = some (toNTPTimestamp t3) ∧
      toNTPTimestamp t2 ≤ toNTPTimestamp t3 := by
  have hf := wireLayout_fields b t2 t3 (by omega)
  refine ⟨wireLayout b t2 t3, ?_, ?_, ?_, toNTPTimestamp_mono t2 t3 h2 h3 hle hera⟩
  · rw [iteration_sent b n t2 t3 sendErr (by omega) hn]
  · rw [hf.2.2.2.2.2.1, uint64_BE64 _ (toNTPTimestamp_lt _)]
  · rw [hf.2.2.1, uint64_BE64 _ (toNTPTimestamp_lt _)]

/-- Witness of C4 as amended: received at the Unix epoch, sent at the last nanosecond before the
rollover. -/
theorem timestamp_ordering_same_era_witness :
    ∃ reply,
      (iteration freshBuffer 14 false unixEpoch lastOfEra0 false).result = some (.sent reply) ∧
      Uint64 (bytes reply 16 24) = some (toNTPTimestamp unixEpoch) ∧
      Uint64 (bytes reply 4 12) = some (toNTPTimestamp lastOfEra0) ∧
      toNTPTimestamp unixEpoch ≤ toNTPTimestamp lastOfEra0 :=
  timestamp_ordering_same_era freshBuffer 14 unixEpoch lastOfEra0 false freshBuffer_length
    (le_refl 14) (by decide) (by decide) (by decide) (by decide)


/-- C5. Minimum-size rejection: for every datagram `d` read into the receive buffer of 1500 bytes,
the iteration sends a reply if and only if `d` has at least 14 bytes.  When `d` is shorter
(the empty datagram included) the iteration performs exactly two effects, the clock read and the
log line, so no slice or index expression on the buffer; it ends without a panic and without a
reply; and the loop goes on with the datagrams that follow. -/
theorem minimum_size_rejection (old d : List Byte) (t2 t3 : Time) (sendErr : Bool)
    (hold : old.length = 1500) :
    ((∃ buffer reply,
        (loopBody old ⟨some d, t2, t3, sendErr⟩).result = some (buffer, .sent reply)) ↔
      14 ≤ d.length) ∧
    (d.length < 14 →
      (loopBody old ⟨some d, t2, t3, sendErr⟩).trace = [.timeNow t2, .logPrintf .tooSmall] ∧
      (loopBody old ⟨some d, t2, t3, sendErr⟩).result = some ((readFromUDP old d).2, .skipped) ∧
      ∀ xs, serveFrom old (⟨some d, t2, t3, sendErr⟩ :: xs) =
        ⟨[.timeNow t2, .logPrintf .tooSmall] ++ (serveFrom (readFromUDP old d).2 xs).trace,
          (serveFrom (readFromUDP old d).2 xs).result.map fun rs => Step.skipped :: rs⟩) := by
  have hcount := readFromUDP_count old d
  have hshort : d.length < 14 →
      loopBody old ⟨some d, t2, t3, sendErr⟩ =
        ⟨[.timeNow t2, .logPrintf .tooSmall], some ((readFromUDP old d).2, .skipped)⟩ := by
    intro h
    rw [loopBody_datagram, iteration_short _ _ _ _ _ (by omega)]
    rfl
  refine ⟨⟨?_, ?_⟩, ?_⟩
  · rintro ⟨buffer, reply, h⟩
    by_contra hlt
    rw [hshort (by omega)] at h
    simp at h
  · intro h
    exact ⟨_, _, loopBody_sent old d t2 t3 sendErr hold h⟩
  · intro h
    have hres : (loopBody old ⟨some d, t2, t3, sendErr⟩).result =
        some ((readFromUDP old d).2, .skipped) := by rw [hshort h]
    refine ⟨by rw [hshort h], hres, ?_⟩
    intro xs
    rw [serveFrom_cons _ _ _ xs _ hres, hshort h]

/-- Witness of C5: the empty datagram read into the fresh buffer. -/
theorem minimum_size_rejection_witness :
    freshBuffer.length = 1500 ∧
    (((∃ buffer reply,
        (loopBody freshBuffer ⟨some [], unixEpoch, unixEpoch, false⟩).result
          = some (buffer, .sent reply)) ↔
      14 ≤ ([] : List Byte).length) ∧
    (([] : List Byte).length < 14 →
      (loopBody freshBuffer ⟨some [], unixEpoch, unixEpoch, false⟩).trace
        = [.timeNow unixEpoch, .logPrintf .tooSmall] ∧
      (loopBody freshBuffer ⟨some [], unixEpoch, unixEpoch, false⟩).result
        = some ((readFromUDP freshBuffer []).2, .skipped) ∧
      ∀ xs, serveFrom freshBuffer (⟨some [], unixEpoch, unixEpoch, false⟩ :: xs) =
        ⟨[.timeNow unixEpoch, .logPrintf .tooSmall] ++
            (serveFrom (readFromUDP freshBuffer []).2 xs).trace,
          (serveFrom (readFromUDP freshBuffer []).2 xs).result.map
            fun rs => Step.skipped :: rs⟩)) :=
  ⟨freshBuffer_length,
    minimum_size_rejection freshBuffer [] unixEpoch unixEpoch false freshBuffer_length⟩

/-- C6. Fixed reply size: for every datagram of `n` bytes with `14 ≤ n ≤ 1500` read into the
receive buffer and all clock readings, the read returns `n`, and the iteration hands to
`conn.WriteToUDP` one payload, the reply, of exactly 56 bytes. -/
theorem fixed_reply_size (old d : List Byte) (t2 t3 : Time) (sendErr : Bool)
    (hold : old.length = 1500) (hd : 14 ≤ d.length) (hd2 : d.length ≤ 1500) :
    (readFromUDP old d).1 = d.length ∧
    ∃ buffer reply,
      (loopBody old ⟨some d, t2, t3, sendErr⟩).result = some (buffer, .sent reply) ∧
      reply.length = 56 ∧
      ∀ p, Effect.writeToUDP p ∈ (loopBody old ⟨some d, t2, t3, sendErr⟩).trace ↔ p = reply := by
  have hlen := readFromUDP_length old d
  have hcount := readFromUDP_count old d
  refine ⟨by omega, _, _, loopBody_sent old d t2 t3 sendErr hold hd,
    (wireLayout_fields _ t2 t3 (by omega)).1, ?_⟩
  intro p
  rw [loopBody_datagram, iteration_sent _ _ _ _ _ (by omega) (by omega)]
  cases sendErr <;> simp

/-- Witness of C6: the 41-byte sample packet read into the fresh buffer. -/
theorem fixed_reply_size_witness :
    freshBuffer.length = 1500 ∧ 14 ≤ samplePacket41.length ∧ samplePacket41.length ≤ 1500 ∧
    ((readFromUDP freshBuffer samplePacket41).1 = samplePacket41.length ∧
    ∃ buffer reply,
      (loopBody freshBuffer ⟨some samplePacket41, unixEpoch, unixEpoch, false⟩).result
        = some (buffer, .sent reply) ∧
      reply.length = 56 ∧
      ∀ p, Effect.writeToUDP p ∈
        (loopBody freshBuffer ⟨some samplePacket41, unixEpoch, unixEpoch, false⟩).trace ↔
          p = reply) :=
  ⟨freshBuffer_length, by decide, by decide,
    fixed_reply_size freshBuffer samplePacket41 unixEpoch unixEpoch false freshBuffer_length
      (by decide) (by decide)⟩

/-- C7. Reserved-zero invariant: whenever an iteration sends a reply, whatever the receive buffer,
the length read, and the clock readings, the reply's bytes at offsets 14, 15, 38, 39 and 41 to 55
are all zero. -/
theorem reserved_zero (buffer : List Byte) (n : Nat) (readErr : Bool) (t2 t3 : Time)
    (sendErr : Bool) (reply : List Byte)
    (h : (iteration buffer n readErr t2 t3 sendErr).result = some (.sent reply)) :
    ∀ i, (i = 14 ∨ i = 15 ∨ i = 38 ∨ i = 39 ∨ (41 ≤ i ∧ i ≤ 55)) → reply[i]? = some 0 := by
  obtain ⟨_, _, req, _, henc⟩ := iteration_sent_inv buffer n readErr t2 t3 sendErr reply h
  rw [encodeResponse_eq] at henc
  have hreply := (Option.some.inj henc).symm
  subst hreply
  intro i hi
  simp only [BE64, List.cons_append, List.nil_append, List.replicate]
  rcases hi with rfl | rfl | rfl | rfl | ⟨h1, h2⟩
  · rfl
  · rfl
  · rfl
  · rfl
  · interval_cases i <;> simp

/-- Witness of C7: the reply to a 14-byte datagram in the fresh buffer. -/
theorem reserved_zero_witness :
    (iteration freshBuffer 14 false unixEpoch unixEpoch false).result
      = some (.sent (wireLayout freshBuffer unixEpoch unixEpoch)) ∧
    ∀ i, (i = 14 ∨ i = 15 ∨ i = 38 ∨ i = 39 ∨ (41 ≤ i ∧ i ≤ 55)) →
      (wireLayout freshBuffer unixEpoch unixEpoch)[i]? = some 0 :=
  have h : (iteration freshBuffer 14 false unixEpoch unixEpoch false).result
      = some (.sent (wireLayout freshBuffer unixEpoch unixEpoch)) := by
    rw [iteration_sent freshBuffer 14 unixEpoch unixEpoch false
      (by rw [freshBuffer_length]; decide) (le_refl 14)]
  ⟨h, reserved_zero freshBuffer 14 false unixEpoch unixEpoch false _ h⟩


/-- C8, the code at a failing input. The 14-byte sample packet is reflected with the same clock
readings in two runs of the loop: as the first datagram, and after the 41-byte sample packet.
The receive buffer holds the same first 14 bytes in both runs, yet the two replies differ: byte
40 of the reply is `0` in the first run and `0x40`, the TTL byte of the earlier datagram, in the
second. -/
theorem stale_ttl_divergence :
    bytes (readFromUDP freshBuffer samplePacket14).2 0 14 =
      bytes (readFromUDP (readFromUDP freshBuffer samplePacket41).2 samplePacket14).2 0 14 ∧
    ∃ r1 r41 r2,
      (serve [sampleInbound14]).result = some [.sent r1] ∧
      (serve [sampleInbound41, sampleInbound14]).result = some [.sent r41, .sent r2] ∧
      r1[40]? = some 0 ∧ r2[40]? = some 0x40 ∧ r1 ≠ r2 := by
  have hA := loopBody_sent freshBuffer samplePacket14 unixEpoch unixEpoch false
    freshBuffer_length (by decide)
  have hB := loopBody_sent freshBuffer samplePacket41 unixEpoch unixEpoch false
    freshBuffer_length (by decide)
  have hlenB := readFromUDP_length freshBuffer samplePacket41
  rw [freshBuffer_length] at hlenB
  have hC := loopBody_sent (readFromUDP freshBuffer samplePacket41).2 samplePacket14 unixEpoch
    unixEpoch false hlenB (by decide)
  have hlenA := readFromUDP_length freshBuffer samplePacket14
  rw [freshBuffer_length] at hlenA
  have hlenC := readFromUDP_length (readFromUDP freshBuffer samplePacket41).2 samplePacket14
  rw [hlenB] at hlenC
  have hcA : (readFromUDP freshBuffer samplePacket14).1 = 14 := by
    rw [readFromUDP_count, samplePacket14_length, freshBuffer_length]; rfl
  have hcB : (readFromUDP freshBuffer samplePacket41).1 = 41 := by
    rw [readFromUDP_count, samplePacket41_length, freshBuffer_length]; rfl
  have hcC : (readFromUDP (readFromUDP freshBuffer samplePacket41).2 samplePacket14).1 = 14 := by
    rw [readFromUDP_count, samplePacket14_length, hlenB]; rfl
  have hfresh : bytes freshBuffer 40 41 = [0] := by
    simp only [bytes, freshBuffer, List.take_replicate, List.drop_replicate]
    rfl
  have h1 : (wireLayout (readFromUDP freshBuffer samplePacket14).2 unixEpoch unixEpoch)[40]?
      = some 0 := by
    rw [getElem?_eq_bytes, (wireLayout_fields _ _ _ (by omega)).2.2.2.2.2.2.2.2.2.2.1,
      readFromUDP_bytes_stale _ _ _ _ (by omega), hfresh]
    rfl
  have h2 : (wireLayout (readFromUDP (readFromUDP freshBuffer samplePacket41).2
      samplePacket14).2 unixEpoch unixEpoch)[40]? = some 0x40 := by
    rw [getElem?_eq_bytes, (wireLayout_fields _ _ _ (by omega)).2.2.2.2.2.2.2.2.2.2.1,
      readFromUDP_bytes_stale _ _ _ _ (by omega), readFromUDP_bytes _ _ _ _ (by omega)]
    decide
  refine ⟨?_, wireLayout (readFromUDP freshBuffer samplePacket14).2 unixEpoch unixEpoch,
    wireLayout (readFromUDP freshBuffer samplePacket41).2 unixEpoch unixEpoch,
    wireLayout (readFromUDP (readFromUDP freshBuffer samplePacket41).2 samplePacket14).2
      unixEpoch unixEpoch, ?_, ?_, h1, h2, ?_⟩
  · rw [readFromUDP_bytes _ _ _ _ (by omega), readFromUDP_bytes _ _ _ _ (by omega)]
  · unfold serve sampleInbound14
    rw [serveFrom_cons _ _ _ _ _ hA, serveFrom_nil]
    rfl
  · unfold serve sampleInbound41 sampleInbound14
    rw [serveFrom_cons _ _ _ _ _ hB, serveFrom_cons _ _ _ _ _ hC, serveFrom_nil]
    rfl
  · intro heq
    rw [heq, h2] at h1
    exact absurd h1 (by decide)

/-- C9. No panic on short packets: for every datagram of `n` bytes with `14 ≤ n ≤ 1500` read into
the receive buffer of 1500 bytes, the read returns `n` and the iteration ends by sending a reply,
not in a panic.  The slice expressions it evaluates on the buffer are exactly `buffer[0:4]`,
`buffer[4:12]` and `buffer[12:14]`, the index expressions exactly `buffer[40]`, and each is within
the bounds of the buffer; the encoder, with all its writes into the 56-byte response buffer,
returns 56 bytes for every response packet. -/
theorem no_panic_on_short_packets (old d : List Byte) (t2 t3 : Time) (sendErr : Bool)
    (hold : old.length = 1500) (hd : 14 ≤ d.length) (hd2 : d.length ≤ 1500) :
    (readFromUDP old d).1 = d.length ∧
    (∃ reply, (loopBody old ⟨some d, t2, t3, sendErr⟩).result
      = some ((readFromUDP old d).2, .sent reply)) ∧
    (∀ lo hi, Effect.bufferSlice lo hi ∈ (loopBody old ⟨some d, t2, t3, sendErr⟩).trace ↔
      (lo = 0 ∧ hi = 4) ∨ (lo = 4 ∧ hi = 12) ∨ (lo = 12 ∧ hi = 14)) ∧
    (∀ i, Effect.bufferIndex i ∈ (loopBody old ⟨some d, t2, t3, sendErr⟩).trace ↔ i = 40) ∧
    (∀ lo hi, Effect.bufferSlice lo hi ∈ (loopBody old ⟨some d, t2, t3, sendErr⟩).trace →
      lo ≤ hi ∧ hi ≤ (readFromUDP old d).2.length) ∧
    (∀ i, Effect.bufferIndex i ∈ (loopBody old ⟨some d, t2, t3, sendErr⟩).trace →
      i < (readFromUDP old d).2.length) ∧
    (∀ p : TwampTestPacket, ∃ out, encodeResponse p = some out ∧ out.length = 56) := by
  have hlen := readFromUDP_length old d
  have hcount := readFromUDP_count old d
  have htrace : (loopBody old ⟨some d, t2, t3, sendErr⟩).trace =
      [.timeNow t2, .bufferSlice 0 4, .bufferSlice 4 12, .bufferSlice 12 14, .bufferIndex 40,
          .logPrintf (.received (BEValue (bytes (readFromUDP old d).2 0 4))), .timeNow t3,
          .writeToUDP (wireLayout (readFromUDP old d).2 t2 t3)] ++
          (if sendErr then [.logPrintf .sendError] else []) := by
    rw [loopBody_datagram, iteration_sent _ _ _ _ _ (by omega) (by omega)]
  have hslice : ∀ lo hi,
      Effect.bufferSlice lo hi ∈ (loopBody old ⟨some d, t2, t3, sendErr⟩).trace ↔
        (lo = 0 ∧ hi = 4) ∨ (lo = 4 ∧ hi = 12) ∨ (lo = 12 ∧ hi = 14) := by
    intro lo hi
    rw [htrace]
    cases sendErr <;> simp
  have hindex : ∀ i,
      Effect.bufferIndex i ∈ (loopBody old ⟨some d, t2, t3, sendErr⟩).trace ↔ i = 40 := by
    intro i
    rw [htrace]
    cases sendErr <;> simp
  refine ⟨by omega, ⟨_, loopBody_sent old d t2 t3 sendErr hold hd⟩, hslice, hindex, ?_, ?_, ?_⟩
  · intro lo hi hmem
    rcases (hslice lo hi).1 hmem with ⟨rfl, rfl⟩ | ⟨rfl, rfl⟩ | ⟨rfl, rfl⟩ <;> omega
  · intro i hmem
    rw [(hindex i).1 hmem]
    omega
  · intro p
    refine ⟨_, encodeResponse_eq p, ?_⟩
    simp [BE64]

/-- Witness of C9: the 14-byte sample packet, which has no byte 40, read into the fresh
buffer. -/
theorem no_panic_on_short_packets_witness :
    freshBuffer.length = 1500 ∧ 14 ≤ samplePacket14.length ∧ samplePacket14.length ≤ 1500 ∧
    (∃ reply, (loopBody freshBuffer ⟨some samplePacket14, unixEpoch, unixEpoch, false⟩).result
      = some ((readFromUDP freshBuffer samplePacket14).2, .sent reply)) ∧
    (∀ i, Effect.bufferIndex i ∈
        (loopBody freshBuffer ⟨some samplePacket14, unixEpoch, unixEpoch, false⟩).trace →
      i < (readFromUDP freshBuffer samplePacket14).2.length) :=
  ⟨freshBuffer_length, by decide, by decide,
    (no_panic_on_short_packets freshBuffer samplePacket14 unixEpoch unixEpoch false
      freshBuffer_length (by decide) (by decide)).2.1,
    (no_panic_on_short_packets freshBuffer samplePacket14 unixEpoch unixEpoch false
      freshBuffer_length (by decide) (by decide)).2.2.2.2.2.1⟩

/-- C10. Sender TTL echo: for every datagram of at least 41 bytes read into the receive buffer,
the iteration sends a reply whose byte 40 is the datagram's own byte 40, whatever its value. -/
theorem sender_ttl_echo (old d : List Byte) (t2 t3 : Time) (sendErr : Bool)
    (hold : old.length = 1500) (hd : 41 ≤ d.length) :
    ∃ buffer reply ttl,
      (loopBody old ⟨some d, t2, t3, sendErr⟩).result = some (buffer, .sent reply) ∧
      d[40]? = some ttl ∧ reply[40]? = some ttl := by
  have hlen := readFromUDP_length old d
  have hcount := readFromUDP_count old d
  have hd40 : 40 < d.length := by omega
  refine ⟨_, _, d[40], loopBody_sent old d t2 t3 sendErr hold (by omega),
    List.getElem?_eq_getElem hd40, ?_⟩
  rw [getElem?_eq_bytes, (wireLayout_fields _ t2 t3 (by omega)).2.2.2.2.2.2.2.2.2.2.1,
    readFromUDP_bytes old d 40 41 (by omega), ← getElem?_eq_bytes]
  exact List.getElem?_eq_getElem hd40

/-- Witness of C10: the 41-byte sample packet, whose byte 40 is `0x40`, read into the fresh
buffer. -/
theorem sender_ttl_echo_witness :
    freshBuffer.length = 1500 ∧ 41 ≤ samplePacket41.length ∧
    ∃ buffer reply ttl,
      (loopBody freshBuffer ⟨some samplePacket41, unixEpoch, unixEpoch, false⟩).result
        = some (buffer, .sent reply) ∧
      samplePacket41[40]? = some ttl ∧ reply[40]? = some ttl :=
  ⟨freshBuffer_length, by decide,
    sender_ttl_echo freshBuffer samplePacket41 unixEpoch unixEpoch false freshBuffer_length
      (by decide)⟩


/-- C11. Codec round-trip: for Unix seconds `s` in `[0, 2085978496)` and a nanosecond part
`n < 10^9`, the instant that `toNTPTimestamp` of the reading denotes, namely
`(v >> 32) - 2208988800 + (v mod 2^32) / 2^32` seconds as an exact rational, is at most the
instant read, `s + n / 10^9`, and falls short of it by strictly less than `2^-32` seconds. -/
theorem codec_roundtrip_error (t : Time)
    (hlo : 0 ≤ t.unix) (hhi : t.unix < 2085978496) (hn : t.nanosecond < 1000000000) :
    decodeNTP (toNTPTimestamp t) ≤ t.seconds ∧
    t.seconds - decodeNTP (toNTPTimestamp t) < 1 / 2 ^ 32 := by
  obtain ⟨secs, hsecs, hlt, heq⟩ := toNTPTimestamp_era0 t (by omega) hhi hn
  have hf := fraction_lt t.nanosecond hn
  have hhigh : toNTPTimestamp t >>> 32 = secs := by
    rw [Nat.shiftRight_eq_div_pow, heq]; omega
  have hlow : toNTPTimestamp t % 2 ^ 32 = t.nanosecond * 2 ^ 32 / 1000000000 := by
    rw [heq]; omega
  have hsq : (secs : ℚ) = (t.unix : ℚ) + 2208988800 := by
    have := congrArg (fun z : Int => (z : ℚ)) hsecs
    simpa using this
  have h1 : t.nanosecond * 2 ^ 32 / 1000000000 * 1000000000 ≤ t.nanosecond * 2 ^ 32 :=
    Nat.div_mul_le_self _ _
  have h2 : t.nanosecond * 2 ^ 32 <
      (t.nanosecond * 2 ^ 32 / 1000000000 + 1) * 1000000000 := by omega
  generalize t.nanosecond * 2 ^ 32 / 1000000000 = frac at h1 h2 hlow hf
  have h1q : (frac : ℚ) * 1000000000 ≤ (t.nanosecond : ℚ) * 2 ^ 32 := by exact_mod_cast h1
  have h2q : (t.nanosecond : ℚ) * 2 ^ 32 < ((frac : ℚ) + 1) * 1000000000 := by exact_mod_cast h2
  unfold decodeNTP Time.seconds
  rw [hhigh, hlow, hsq]
  constructor
  · have : (frac : ℚ) / 2 ^ 32 ≤ (t.nanosecond : ℚ) / 1000000000 := by
      rw [div_le_div_iff₀ (by norm_num) (by norm_num)]
      exact h1q
    linarith
  · have : (t.nanosecond : ℚ) / 1000000000 < ((frac : ℚ) + 1) / 2 ^ 32 := by
      rw [div_lt_div_iff₀ (by norm_num) (by norm_num)]
      exact h2q
    have h3 : ((frac : ℚ) + 1) / 2 ^ 32 = (frac : ℚ) / 2 ^ 32 + 1 / 2 ^ 32 := by ring
    linarith

/-- Witness of C11: the last nanosecond before the 2036 rollover. -/
theorem codec_roundtrip_error_witness :
    decodeNTP (toNTPTimestamp lastOfEra0) ≤ lastOfEra0.seconds ∧
    lastOfEra0.seconds - decodeNTP (toNTPTimestamp lastOfEra0) < 1 / 2 ^ 32 :=
  codec_roundtrip_error lastOfEra0 (by decide) (by decide) (by decide)

/-- C12. Golden value: for Unix seconds `s` in `[0, 2085978496)` and no sub-second part,
`toNTPTimestamp` is `(s + 2208988800) << 32`, with the low 32 bits zero; the Unix epoch encodes
to `0x83AA7E8000000000`, in network byte order the bytes `83 AA 7E 80 00 00 00 00`. -/
theorem golden_value (t : Time)
    (hlo : 0 ≤ t.unix) (hhi : t.unix < 2085978496) (hn : t.nanosecond = 0) :
    (toNTPTimestamp t : Int) = (t.unix + 2208988800) * 2 ^ 32 ∧
    toNTPTimestamp t = (t.unix + 2208988800).toNat <<< 32 ∧
    toNTPTimestamp t % 2 ^ 32 = 0 ∧
    toNTPTimestamp unixEpoch = 0x83AA7E8000000000 ∧
    BE64 (toNTPTimestamp unixEpoch) = [0x83, 0xAA, 0x7E, 0x80, 0x00, 0x00, 0x00, 0x00] := by
  obtain ⟨secs, hsecs, hlt, heq⟩ := toNTPTimestamp_era0 t (by omega) hhi (by omega)
  rw [hn] at heq
  rw [Nat.shiftLeft_eq]
  refine ⟨by omega, by omega, by omega, by decide, by decide⟩

/-- Witness of C12: the Unix epoch. -/
theorem golden_value_witness :
    (toNTPTimestamp unixEpoch : Int) = (unixEpoch.unix + 2208988800) * 2 ^ 32 ∧
    toNTPTimestamp unixEpoch = (unixEpoch.unix + 2208988800).toNat <<< 32 ∧
    toNTPTimestamp unixEpoch % 2 ^ 32 = 0 ∧
    toNTPTimestamp unixEpoch = 0x83AA7E8000000000 ∧
    BE64 (toNTPTimestamp unixEpoch) = [0x83, 0xAA, 0x7E, 0x80, 0x00, 0x00, 0x00, 0x00] :=
  golden_value unixEpoch (by decide) (by decide) rfl

/-- C13, counterexample. The 41-byte scenario packet is received at the last nanosecond before
2036-02-07T06:28:16Z and the reply is built at that instant; the readings are well-formed and the
first is not later than the second.  The reply's Timestamp (bytes 4..11) reads `0`, so it is not
non-zero, and its Receive Timestamp (bytes 16..23) reads `2^64 - 5`, which exceeds it. -/
theorem scenario_counterexample :
    lastOfEra0.wellFormed ∧ firstOfEra1.wellFormed ∧ lastOfEra0.notAfter firstOfEra1 ∧
    ∃ buffer reply,
      (loopBody freshBuffer ⟨some samplePacket41, lastOfEra0, firstOfEra1, false⟩).result
        = some (buffer, .sent reply) ∧
      Uint64 (bytes reply 4 12) = some 0 ∧
      Uint64 (bytes reply 16 24) = some 18446744073709551611 := by
  have hlen := readFromUDP_length freshBuffer samplePacket41
  rw [freshBuffer_length] at hlen
  have hf := wireLayout_fields (readFromUDP freshBuffer samplePacket41).2 lastOfEra0
    firstOfEra1 (by omega)
  have e2 : toNTPTimestamp lastOfEra0 = 18446744073709551611 := by decide
  have e3 : toNTPTimestamp firstOfEra1 = 0 := by decide
  refine ⟨by decide, by decide, by decide, (readFromUDP freshBuffer samplePacket41).2,
    wireLayout (readFromUDP freshBuffer samplePacket41).2 lastOfEra0 firstOfEra1,
    loopBody_sent freshBuffer samplePacket41 lastOfEra0 firstOfEra1 false freshBuffer_length
      (by decide), ?_, ?_⟩
  · rw [hf.2.2.1, uint64_BE64 _ (toNTPTimestamp_lt _), e3]
  · rw [hf.2.2.2.2.2.1, uint64_BE64 _ (toNTPTimestamp_lt _), e2]

/-- C13, as amended. Scenario: the 41-byte packet with Sequence 1, Timestamp 0, Error Estimate
0 and TTL byte `0x40` at offset 40 is read into the receive buffer, with clock readings `t2` not
later than `t3`, nanosecond parts below `10^9`, no rollover of the 32-bit NTP seconds between the
two, and neither on a rollover instant (whole seconds since 1900 a multiple of `2^32` with zero
nanoseconds).  The reply has 56 bytes, Sequence 1, Sender Sequence 1, Sender Timestamp 0, Sender
Error Estimate 0, Sender TTL `0x40`; its Timestamp and Receive Timestamp are both non-zero and
the Receive Timestamp is at most the Timestamp. -/
theorem scenario (old : List Byte) (t2 t3 : Time) (sendErr : Bool)
    (hold : old.length = 1500)
    (h2 : t2.nanosecond < 1000000000) (h3 : t3.nanosecond < 1000000000)
    (hle : t2.notAfter t3)
    (hera : (t2.unix + 2208988800) / 2 ^ 32 = (t3.unix + 2208988800) / 2 ^ 32)
    (hnz2 : ¬ ((t2.unix + 2208988800) % 2 ^ 32 = 0 ∧ t2.nanosecond = 0))
    (hnz3 : ¬ ((t3.unix + 2208988800) % 2 ^ 32 = 0 ∧ t3.nanosecond = 0)) :
    ∃ buffer reply,
      (loopBody old ⟨some samplePacket41, t2, t3, sendErr⟩).result
        = some (buffer, .sent reply) ∧
      reply.length = 56 ∧
      Uint32 (bytes reply 0 4) = some 1 ∧
      Uint32 (bytes reply 24 28) = some 1 ∧
      Uint64 (bytes reply 28 36) = some 0 ∧
      Uint16 (bytes reply 36 38) = some 0 ∧
      reply[40]? = some 0x40 ∧
      ∃ timestamp receiveTimestamp,
        Uint64 (bytes reply 4 12) = some timestamp ∧
        Uint64 (bytes reply 16 24) = some receiveTimestamp ∧
        timestamp ≠ 0 ∧ receiveTimestamp ≠ 0 ∧ receiveTimestamp ≤ timestamp := by
  have hlen := readFromUDP_length old samplePacket41
  have hcount : (readFromUDP old samplePacket41).1 = 41 := by
    rw [readFromUDP_count, samplePacket41_length, hold]; rfl
  have hf := wireLayout_fields (readFromUDP old samplePacket41).2 t2 t3 (by omega)
  obtain ⟨p0, p4, _, p40⟩ := samplePacket41_fields
  refine ⟨(readFromUDP old samplePacket41).2, wireLayout (readFromUDP old samplePacket41).2 t2 t3,
    loopBody_sent old samplePacket41 t2 t3 sendErr hold (by decide), hf.1, ?_, ?_, ?_, ?_, ?_,
    toNTPTimestamp t3, toNTPTimestamp t2, ?_, ?_,
    toNTPTimestamp_ne_zero t3 h3 hnz3, toNTPTimestamp_ne_zero t2 h2 hnz2,
    toNTPTimestamp_mono t2 t3 h2 h3 hle hera⟩
  · rw [hf.2.1, readFromUDP_bytes _ _ _ _ (by omega), p0]; rfl
  · rw [hf.2.2.2.2.2.2.1, readFromUDP_bytes _ _ _ _ (by omega), p0]; rfl
  · rw [hf.2.2.2.2.2.2.2.1, readFromUDP_bytes _ _ _ _ (by omega), p4]; rfl
  · rw [hf.2.2.2.2.2.2.2.2.1]; rfl
  · rw [getElem?_eq_bytes, hf.2.2.2.2.2.2.2.2.2.2.1, readFromUDP_bytes _ _ _ _ (by omega), p40]
    rfl
  · rw [hf.2.2.1, uint64_BE64 _ (toNTPTimestamp_lt _)]
  · rw [hf.2.2.2.2.2.1, uint64_BE64 _ (toNTPTimestamp_lt _)]

/-- Witness of C13 as amended: received at the Unix epoch, reply built at the last nanosecond
before the rollover. -/
theorem scenario_witness :
    ∃ buffer reply,
      (loopBody freshBuffer ⟨some samplePacket41, unixEpoch, lastOfEra0, false⟩).result
        = some (buffer, .sent reply) ∧
      reply.length = 56 ∧
      Uint32 (bytes reply 0 4) = some 1 ∧
      Uint32 (bytes reply 24 28) = some 1 ∧
      Uint64 (bytes reply 28 36) = some 0 ∧
      Uint16 (bytes reply 36 38) = some 0 ∧
      reply[40]? = some 0x40 ∧
      ∃ timestamp receiveTimestamp,
        Uint64 (bytes reply 4 12) = some timestamp ∧
        Uint64 (bytes reply 16 24) = some receiveTimestamp ∧
        timestamp ≠ 0 ∧ receiveTimestamp ≠ 0 ∧ receiveTimestamp ≤ timestamp :=
  scenario freshBuffer unixEpoch lastOfEra0 false freshBuffer_length (by decide) (by decide)
    (by decide) (by decide) (by decide) (by decide)

/-- C14. Timestamp-capture discipline, on the sequence of effects of one iteration after a
successful read into the receive buffer: the first effect is the clock read that yields T2,
whatever the length read; for a datagram shorter than 14 bytes the only other effect is the log
line; for a datagram of at least 14 bytes the effects are the T2 clock read, the four accesses to
the buffer, the log line, the clock read that yields T3 and directly after it the send, followed
only by the log line of a failed send. -/
theorem capture_discipline (buffer : List Byte) (n : Nat) (t2 t3 : Time) (sendErr : Bool)
    (hb : buffer.length = 1500) :
    (∃ rest, (iteration buffer n false t2 t3 sendErr).trace = .timeNow t2 :: rest) ∧
    (n < 14 →
      (iteration buffer n false t2 t3 sendErr).trace = [.timeNow t2, .logPrintf .tooSmall]) ∧
    (14 ≤ n →
      ∃ seq reply,
        (iteration buffer n false t2 t3 sendErr).result = some (.sent reply) ∧
        (iteration buffer n false t2 t3 sendErr).trace =
          [.timeNow t2, .bufferSlice 0 4, .bufferSlice 4 12, .bufferSlice 12 14,
            .bufferIndex 40, .logPrintf (.received seq), .timeNow t3, .writeToUDP reply] ++
            (if sendErr then [.logPrintf .sendError] else [])) := by
  refine ⟨?_, ?_, ?_⟩
  · by_cases hn : n < 14
    · rw [iteration_short _ _ _ _ _ hn]; exact ⟨_, rfl⟩
    · rw [iteration_sent _ _ _ _ _ (by omega) (by omega)]; exact ⟨_, rfl⟩
  · intro hn
    rw [iteration_short _ _ _ _ _ hn]
  · intro hn
    rw [iteration_sent _ _ _ _ _ (by omega) hn]
    exact ⟨_, _, rfl, rfl⟩


/-- Witness of C14: a 14-byte datagram in the fresh buffer. -/
theorem capture_discipline_witness :
    freshBuffer.length = 1500 ∧
    ∃ rest, (iteration freshBuffer 14 false unixEpoch lastOfEra0 false).trace
      = .timeNow unixEpoch :: rest :=
  ⟨freshBuffer_length,
    (capture_discipline freshBuffer 14 unixEpoch lastOfEra0 false freshBuffer_length).1⟩

/-- C15. TTL of a short packet: the loop, started with the fresh buffer, is run on any sequence of
socket events `pre`, then a datagram of `n` bytes with `14 ≤ n ≤ 40`, then any events `post`.
It does not panic, and byte 40 of the reply to that datagram is byte 40 of the most recent
datagram received in `pre` that has at least 41 bytes, and `0` if there is none.  (Failed reads
in `pre` leave the buffer as it was and are no datagrams.) -/
theorem short_packet_ttl (pre post : List Inbound) (d : List Byte) (t2 t3 : Time)
    (sendErr : Bool)
    (hd : 14 ≤ d.length) (hd2 : d.length ≤ 40) :
    ∃ rs1 reply rs2,
      (serve (pre ++ ⟨some d, t2, t3, sendErr⟩ :: post)).result
        = some (rs1 ++ .sent reply :: rs2) ∧
      rs1.length = pre.length ∧
      reply[40]? = some (expectedTTL (pre.filterMap fun x => x.datagram)) := by
  have hB : (bufferAfter freshBuffer pre).length = 1500 := by
    rw [bufferAfter_length, freshBuffer_length]
  obtain ⟨rs1, hrs1, hsplit⟩ :=
    serveFrom_append pre (⟨some d, t2, t3, sendErr⟩ :: post) freshBuffer freshBuffer_length
  have hsent := loopBody_sent (bufferAfter freshBuffer pre) d t2 t3 sendErr hB hd
  have hlen := readFromUDP_length (bufferAfter freshBuffer pre) d
  obtain ⟨rs2, hrs2⟩ := serveFrom_total post (readFromUDP (bufferAfter freshBuffer pre) d).2
    (by omega)
  refine ⟨rs1, wireLayout (readFromUDP (bufferAfter freshBuffer pre) d).2 t2 t3, rs2, ?_, hrs1,
    ?_⟩
  · unfold serve
    rw [hsplit, serveFrom_cons _ _ _ _ _ hsent, hrs2]
    rfl
  · rw [getElem?_eq_bytes, (wireLayout_fields _ t2 t3 (by omega)).2.2.2.2.2.2.2.2.2.2.1,
      ← getElem?_eq_bytes, readFromUDP_byte40 _ _ hB, if_neg (by omega),
      bufferAfter_byte40 pre freshBuffer freshBuffer_length, freshBuffer_byte40]
    rfl

/-- Witness of C15: the 14-byte sample packet arriving after the 41-byte sample packet, whose
byte 40 is `0x40`. -/
theorem short_packet_ttl_witness :
    14 ≤ samplePacket14.length ∧ samplePacket14.length ≤ 40 ∧
    expectedTTL ([sampleInbound41].filterMap fun x => x.datagram) = 0x40 ∧
    ∃ rs1 reply rs2,
      (serve ([sampleInbound41] ++
        ⟨some samplePacket14, unixEpoch, unixEpoch, false⟩ :: [])).result
        = some (rs1 ++ .sent reply :: rs2) ∧
      rs1.length = [sampleInbound41].length ∧
      reply[40]? = some (expectedTTL ([sampleInbound41].filterMap fun x => x.datagram)) :=
  ⟨by decide, by decide, by decide,
    short_packet_ttl [sampleInbound41] [] samplePacket14 unixEpoch unixEpoch false (by decide)
      (by decide)⟩

/-- C16. Strict monotonicity before the rollover: for two readings with Unix seconds in
`[-2208988800, 2085978496)` and nanosecond parts below `10^9`, if the first is lexicographically
less than the second then its `toNTPTimestamp` is strictly less; hence equal encodings come
from equal readings, and two different nanosecond parts in the same second give different
32-bit fractions. -/
theorem toNTPTimestamp_strictMono (t1 t2 : Time)
    (hlo1 : -2208988800 ≤ t1.unix) (hhi1 : t1.unix < 2085978496)
    (hn1 : t1.nanosecond < 1000000000)
    (hlo2 : -2208988800 ≤ t2.unix) (hhi2 : t2.unix < 2085978496)
    (hn2 : t2.nanosecond < 1000000000) :
    ((t1.unix < t2.unix ∨ (t1.unix = t2.unix ∧ t1.nanosecond < t2.nanosecond)) →
      toNTPTimestamp t1 < toNTPTimestamp t2) ∧
    (toNTPTimestamp t1 = toNTPTimestamp t2 → t1 = t2) ∧
    (t1.unix = t2.unix → t1.nanosecond ≠ t2.nanosecond →
      toNTPTimestamp t1 % 2 ^ 32 ≠ toNTPTimestamp t2 % 2 ^ 32) := by
  obtain ⟨s1, hs1, hl1, he1⟩ := toNTPTimestamp_era0 t1 hlo1 hhi1 hn1
  obtain ⟨s2, hs2, hl2, he2⟩ := toNTPTimestamp_era0 t2 hlo2 hhi2 hn2
  have hf1 := fraction_lt t1.nanosecond hn1
  have hf2 := fraction_lt t2.nanosecond hn2
  have hlt : (t1.unix < t2.unix ∨ (t1.unix = t2.unix ∧ t1.nanosecond < t2.nanosecond)) →
      toNTPTimestamp t1 < toNTPTimestamp t2 := by
    intro h
    rw [he1, he2]
    rcases h with h | ⟨h, hns⟩
    · have hs : s1 + 1 ≤ s2 := by omega
      generalize t1.nanosecond * 2 ^ 32 / 1000000000 = f1 at hf1 ⊢
      generalize t2.nanosecond * 2 ^ 32 / 1000000000 = f2 at hf2 ⊢
      omega
    · have hs : s1 = s2 := by omega
      have hfr := fraction_strictMono _ _ hns
      omega
  have hgt : (t2.unix < t1.unix ∨ (t2.unix = t1.unix ∧ t2.nanosecond < t1.nanosecond)) →
      toNTPTimestamp t2 < toNTPTimestamp t1 := by
    intro h
    rw [he1, he2]
    rcases h with h | ⟨h, hns⟩
    · have hs : s2 + 1 ≤ s1 := by omega
      generalize t1.nanosecond * 2 ^ 32 / 1000000000 = f1 at hf1 ⊢
      generalize t2.nanosecond * 2 ^ 32 / 1000000000 = f2 at hf2 ⊢
      omega
    · have hs : s1 = s2 := by omega
      have hfr := fraction_strictMono _ _ hns
      omega
  refine ⟨hlt, ?_, ?_⟩
  · intro heq
    have hu : t1.unix = t2.unix := by
      by_contra hne
      rcases lt_or_gt_of_ne hne with h | h
      · have := hlt (Or.inl h); omega
      · have := hgt (Or.inl h); omega
    have hnn : t1.nanosecond = t2.nanosecond := by
      by_contra hne
      rcases lt_or_gt_of_ne hne with h | h
      · have := hlt (Or.inr ⟨hu, h⟩); omega
      · have := hgt (Or.inr ⟨hu.symm, h⟩); omega
    cases t1; cases t2; simp_all
  · intro hu hne
    have hs : s1 = s2 := by omega
    rw [he1, he2]
    rcases lt_or_gt_of_ne hne with h | h
    · have hfr := fraction_strictMono _ _ h
      omega
    · have hfr := fraction_strictMono _ _ h
      omega

/-- Witness of C16: the Unix epoch and the last nanosecond before the rollover. -/
theorem toNTPTimestamp_strictMono_witness :
    (unixEpoch.unix < lastOfEra0.unix ∨
      (unixEpoch.unix = lastOfEra0.unix ∧ unixEpoch.nanosecond < lastOfEra0.nanosecond)) ∧
    toNTPTimestamp unixEpoch < toNTPTimestamp lastOfEra0 :=
  ⟨by decide,
    (toNTPTimestamp_strictMono unixEpoch lastOfEra0 (by decide) (by decide) (by decide)
      (by decide) (by decide) (by decide)).1 (by decide)⟩

/-- C17. The seconds wrap modulo `2^32`: for Unix seconds `s ≥ -2208988800` and a nanosecond part
`n < 10^9`, the high 32 bits of `toNTPTimestamp` are `(s + 2208988800) mod 2^32` and the low 32
bits are `n * 2^32 / 10^9` truncated; the reading 2036-02-07T06:28:16Z with no nanoseconds
encodes to `0`, less than the encoding of the reading one nanosecond earlier. -/
theorem seconds_wrap (t : Time) (hlo : -2208988800 ≤ t.unix) (hn : t.nanosecond < 1000000000) :
    toNTPTimestamp t / 2 ^ 32 = (t.unix + 2208988800).toNat % 2 ^ 32 ∧
    toNTPTimestamp t % 2 ^ 32 = t.nanosecond * 2 ^ 32 / 1000000000 ∧
    toNTPTimestamp firstOfEra1 = 0 ∧
    toNTPTimestamp firstOfEra1 < toNTPTimestamp lastOfEra0 := by
  have heq := toNTPTimestamp_eq t hn
  have hf := fraction_lt t.nanosecond hn
  have hmod : ((t.unix + 2208988800) % 2 ^ 32).toNat = (t.unix + 2208988800).toNat % 2 ^ 32 := by
    omega
  rw [hmod] at heq
  generalize t.nanosecond * 2 ^ 32 / 1000000000 = frac at heq hf ⊢
  generalize (t.unix + 2208988800).toNat % 2 ^ 32 = secs at heq ⊢
  refine ⟨by omega, by omega, by decide, by decide⟩

/-- Witness of C17: the rollover instant itself. -/
theorem seconds_wrap_witness :
    toNTPTimestamp firstOfEra1 / 2 ^ 32 = (firstOfEra1.unix + 2208988800).toNat % 2 ^ 32 ∧
    toNTPTimestamp firstOfEra1 % 2 ^ 32 = firstOfEra1.nanosecond * 2 ^ 32 / 1000000000 ∧
    toNTPTimestamp firstOfEra1 = 0 ∧
    toNTPTimestamp firstOfEra1 < toNTPTimestamp lastOfEra0 :=
  seconds_wrap firstOfEra1 (by decide) (by decide)

end StampReflector
